import Mathlib

/-!
# Verification of the seastore async cleaner (crimson/os/seastore/async_cleaner.cc)

A shallow embedding of the space-reclamation subsystem: the per-segment
state machine and aggregate counters (`segments_info_t`), the space
trackers (`SpaceTrackerSimple`, `SpaceTrackerDetailed`), the cost-benefit
victim selection, segment release, mount recovery and the backpressure
gate.  Functions are translated from the C++ source; `ceph_assert`,
`ceph_abort` and `assert` failures are modelled as `Option.none`
(aborted execution).  Machine integers are modelled as `Nat`/`Int`
(counters never approach 2^64 in any reachable scenario considered
here), and `double` arithmetic is idealized as exact rational
arithmetic over `ℚ`.  Declarations whose C++ definition lives in the
header `async_cleaner.h` (not part of the sources at hand) are modelled
from the specification and carry a doc comment saying so.
-/

namespace Seastore

/-- Segment lifecycle states (Segment::segment_state_t). -/
inductive segment_state_t
  | EMPTY
  | OPEN
  | CLOSED
deriving DecidableEq, Repr

/-- segment_type_t from seastore_types.h. -/
inductive segment_type_t
  | JOURNAL
  | OOL
  | NULL_SEG
deriving DecidableEq, Repr

/-- data_category_t from seastore_types.h (NUM doubles as the null value). -/
inductive data_category_t
  | METADATA
  | DATA
  | NUM
deriving DecidableEq, Repr

/-- NULL_SEG_SEQ = MAX_SEG_SEQ = 2^32 - 1 (segment_seq_t is uint32_t). -/
def NULL_SEG_SEQ : Nat := 2 ^ 32 - 1

/-- RECLAIM_GENERATIONS from seastore_types.h. -/
def RECLAIM_GENERATIONS : Nat := 3

/-- NULL_GENERATION = max uint8_t. -/
def NULL_GENERATION : Nat := 255

/-- NULL_TIME = sea_time_point(): zero duration since epoch.  Times are
modelled by their time_since_epoch().count() value. -/
def NULL_TIME : Int := 0

/-- segment_info_t from async_cleaner.h: per-segment record kept by
`segments_info_t`.  Field set and defaults follow the spec data model
(3. DATA MODEL) and the source operations in async_cleaner.cc. -/
structure segment_info_t where
  state : segment_state_t := .EMPTY
  seq : Nat := NULL_SEG_SEQ
  type : segment_type_t := .NULL_SEG
  category : data_category_t := .NUM
  generation : Nat := NULL_GENERATION
  modify_time : Int := NULL_TIME
  num_extents : Nat := 0
  written_to : Nat := 0
deriving DecidableEq, Repr

/-- segment_info_t::is_empty. -/
def segment_info_t.is_empty (s : segment_info_t) : Prop := s.state = .EMPTY

/-- segment_info_t::is_open. -/
def segment_info_t.is_open (s : segment_info_t) : Prop := s.state = .OPEN

/-- segment_info_t::is_closed. -/
def segment_info_t.is_closed (s : segment_info_t) : Prop := s.state = .CLOSED

instance (s : segment_info_t) : Decidable s.is_empty := by
  unfold segment_info_t.is_empty; infer_instance

instance (s : segment_info_t) : Decidable s.is_open := by
  unfold segment_info_t.is_open; infer_instance

instance (s : segment_info_t) : Decidable s.is_closed := by
  unfold segment_info_t.is_closed; infer_instance

/-- segment_info_t::set_open (async_cleaner.cc): the four ceph_asserts
become the `none` branches. -/
def segment_info_t.set_open (s : segment_info_t) (_seq : Nat)
    (_type : segment_type_t) (_category : data_category_t)
    (_generation : Nat) : Option segment_info_t :=
  if _seq = NULL_SEG_SEQ then none
  else if _type = .NULL_SEG then none
  else if _category = .NUM then none
  else if ¬ (_generation < RECLAIM_GENERATIONS) then none
  else some { s with
    state := .OPEN, seq := _seq, type := _type,
    category := _category, generation := _generation, written_to := 0 }

/-- segment_info_t::set_empty (async_cleaner.cc). -/
def segment_info_t.set_empty (_s : segment_info_t) : segment_info_t :=
  { state := .EMPTY, seq := NULL_SEG_SEQ, type := .NULL_SEG,
    category := .NUM, generation := NULL_GENERATION,
    modify_time := NULL_TIME, num_extents := 0, written_to := 0 }

/-- segment_info_t::set_closed (async_cleaner.cc): only the state
changes, the rest of the information is unchanged. -/
def segment_info_t.set_closed (s : segment_info_t) : segment_info_t :=
  { s with state := .CLOSED }

/-- segment_info_t::init_closed (async_cleaner.cc). -/
def segment_info_t.init_closed (s : segment_info_t) (_seq : Nat)
    (_type : segment_type_t) (_category : data_category_t)
    (_generation : Nat) (seg_size : Nat) : Option segment_info_t :=
  if _seq = NULL_SEG_SEQ then none
  else if _type = .NULL_SEG then none
  else if _category = .NUM then none
  else if ¬ (_generation < RECLAIM_GENERATIONS) then none
  else some { s with
    state := .CLOSED, seq := _seq, type := _type,
    category := _category, generation := _generation,
    written_to := seg_size }

/-- segments_info_t from async_cleaner.h: the segment directory.  The
per-device map is flattened to a single list indexed by segment number
(one segment manager); all aggregate counters from the source are
kept. -/
structure segments_info_t where
  segments : List segment_info_t
  segment_size : Nat
  journal_segment_id : Option Nat
  num_in_journal_open : Nat
  num_type_journal : Nat
  num_type_ool : Nat
  num_open : Nat
  num_empty : Nat
  num_closed : Nat
  count_open_journal : Nat
  count_open_ool : Nat
  count_release_journal : Nat
  count_release_ool : Nat
  count_close_journal : Nat
  count_close_ool : Nat
  total_bytes : Nat
  avail_bytes_in_open : Nat
  modify_times : Multiset Int
deriving DecidableEq

/-- segments_info_t::get_segment_size. -/
def segments_info_t.get_segment_size (s : segments_info_t) : Nat :=
  s.segment_size

/-- Modelled from the spec: segments_info_t::get_available_bytes is
declared in the missing async_cleaner.h.  Spec 3 (invariant 4):
`available_bytes = empty * segment_size + avail_in_open`. -/
def segments_info_t.get_available_bytes (s : segments_info_t) : Nat :=
  s.num_empty * s.segment_size + s.avail_bytes_in_open

/-- Modelled from the spec: segments_info_t::get_submitted_journal_head
is declared in the missing async_cleaner.h.  The source comment in
segments_info_t::init_closed says "init_closed won't initialize
journal_segment_id", and the head is JOURNAL_SEQ_NULL exactly when no
journal segment has been recorded, so the init_closed assertion
`get_submitted_journal_head() == JOURNAL_SEQ_NULL` is modelled as
`journal_segment_id = none`. -/
def segments_info_t.submitted_journal_head_is_null
    (s : segments_info_t) : Prop :=
  s.journal_segment_id = none

instance (s : segments_info_t) : Decidable s.submitted_journal_head_is_null := by
  unfold segments_info_t.submitted_journal_head_is_null; infer_instance

/-- segments_info_t state right after reset() and one
add_segment_manager(...) call (async_cleaner.cc): all segments empty,
`num_empty = nsegments`, `total_bytes = sm_size`.  The asserts
`ssize > 0`, `nsegments > 0`, `sm_size > 0` become hypotheses of the
reachability predicate. -/
def segmentsInit (nsegments ssize sm_size : Nat) : segments_info_t where
  segments := List.replicate nsegments {}
  segment_size := ssize
  journal_segment_id := none
  num_in_journal_open := 0
  num_type_journal := 0
  num_type_ool := 0
  num_open := 0
  num_empty := nsegments
  num_closed := 0
  count_open_journal := 0
  count_open_ool := 0
  count_release_journal := 0
  count_release_ool := 0
  count_close_journal := 0
  count_close_ool := 0
  total_bytes := sm_size
  avail_bytes_in_open := 0
  modify_times := 0

/-- segments_info_t::init_closed (async_cleaner.cc). -/
def segments_info_t.init_closed (s : segments_info_t) (segment seq : Nat)
    (type : segment_type_t) (category : data_category_t)
    (generation : Nat) : Option segments_info_t :=
  match s.segments[segment]? with
  | none => none
  | some segment_info =>
    if ¬ segment_info.is_empty then none
    else if s.num_empty = 0 then none
    else if type = .JOURNAL ∧ ¬ s.submitted_journal_head_is_null then none
    else if segment_info.modify_time = NULL_TIME ∧ segment_info.num_extents ≠ 0 then none
    else
      match segment_info.init_closed seq type category generation s.get_segment_size with
      | none => none
      | some info =>
        some { s with
          segments := s.segments.set segment info,
          num_empty := s.num_empty - 1,
          num_closed := s.num_closed + 1,
          num_type_journal :=
            if type = .JOURNAL then s.num_type_journal + 1 else s.num_type_journal,
          num_type_ool :=
            if type = .JOURNAL then s.num_type_ool else s.num_type_ool + 1,
          modify_times :=
            if segment_info.modify_time ≠ NULL_TIME
            then segment_info.modify_time ::ₘ s.modify_times
            else s.modify_times }

/-- The journal assertions guarding segments_info_t::mark_open for a
JOURNAL segment: if a journal segment is recorded, it must be closed,
of journal type, and its seq must be exactly one less than the new
seq. -/
def segments_info_t.journal_open_ok (s : segments_info_t) (seq : Nat) : Prop :=
  s.journal_segment_id.elim True (fun j =>
    (s.segments[j]?).elim False (fun last =>
      last.is_closed ∧ last.type = .JOURNAL ∧ last.seq + 1 = seq))

instance (s : segments_info_t) (seq : Nat) : Decidable (s.journal_open_ok seq) := by
  unfold segments_info_t.journal_open_ok
  cases s.journal_segment_id with
  | none => exact inferInstanceAs (Decidable True)
  | some j =>
    simp only [Option.elim]
    cases s.segments[j]? with
    | none => exact inferInstanceAs (Decidable False)
    | some last =>
      simp only [Option.elim]
      exact inferInstanceAs
        (Decidable (last.is_closed ∧ last.type = .JOURNAL ∧ last.seq + 1 = seq))

/-- segments_info_t::mark_open (async_cleaner.cc). -/
def segments_info_t.mark_open (s : segments_info_t) (segment seq : Nat)
    (type : segment_type_t) (category : data_category_t)
    (generation : Nat) : Option segments_info_t :=
  match s.segments[segment]? with
  | none => none
  | some segment_info =>
    if ¬ segment_info.is_empty then none
    else if s.num_empty = 0 then none
    else if type = .JOURNAL ∧ ¬ s.journal_open_ok seq then none
    else
      match segment_info.set_open seq type category generation with
      | none => none
      | some info =>
        some { s with
          segments := s.segments.set segment info,
          num_empty := s.num_empty - 1,
          num_open := s.num_open + 1,
          journal_segment_id :=
            if type = .JOURNAL then some segment else s.journal_segment_id,
          num_in_journal_open :=
            if type = .JOURNAL then s.num_in_journal_open + 1 else s.num_in_journal_open,
          num_type_journal :=
            if type = .JOURNAL then s.num_type_journal + 1 else s.num_type_journal,
          num_type_ool :=
            if type = .JOURNAL then s.num_type_ool else s.num_type_ool + 1,
          count_open_journal :=
            if type = .JOURNAL then s.count_open_journal + 1 else s.count_open_journal,
          count_open_ool :=
            if type = .JOURNAL then s.count_open_ool else s.count_open_ool + 1,
          avail_bytes_in_open := s.avail_bytes_in_open + s.get_segment_size }

/-- segments_info_t::mark_empty (async_cleaner.cc). -/
def segments_info_t.mark_empty (s : segments_info_t) (segment : Nat) :
    Option segments_info_t :=
  match s.segments[segment]? with
  | none => none
  | some segment_info =>
    if ¬ segment_info.is_closed then none
    else if segment_info.type = .NULL_SEG then none
    else if s.num_closed = 0 then none
    else if (if segment_info.type = .JOURNAL
             then s.num_type_journal = 0 else s.num_type_ool = 0) then none
    else if segment_info.modify_time ≠ NULL_TIME ∧
            segment_info.modify_time ∉ s.modify_times then none
    else if segment_info.modify_time = NULL_TIME ∧ segment_info.num_extents ≠ 0 then none
    else
      some { s with
        segments := s.segments.set segment segment_info.set_empty,
        num_closed := s.num_closed - 1,
        num_empty := s.num_empty + 1,
        num_type_journal :=
          if segment_info.type = .JOURNAL then s.num_type_journal - 1 else s.num_type_journal,
        num_type_ool :=
          if segment_info.type = .JOURNAL then s.num_type_ool else s.num_type_ool - 1,
        count_release_journal :=
          if segment_info.type = .JOURNAL then s.count_release_journal + 1 else s.count_release_journal,
        count_release_ool :=
          if segment_info.type = .JOURNAL then s.count_release_ool else s.count_release_ool + 1,
        modify_times :=
          if segment_info.modify_time ≠ NULL_TIME
          then s.modify_times.erase segment_info.modify_time
          else s.modify_times }

/-- segments_info_t::mark_closed (async_cleaner.cc). -/
def segments_info_t.mark_closed (s : segments_info_t) (segment : Nat) :
    Option segments_info_t :=
  match s.segments[segment]? with
  | none => none
  | some segment_info =>
    if ¬ segment_info.is_open then none
    else if s.num_open = 0 then none
    else if segment_info.type = .JOURNAL ∧ s.num_in_journal_open = 0 then none
    else if ¬ (segment_info.written_to ≤ s.get_segment_size) then none
    else if ¬ (s.get_segment_size - segment_info.written_to ≤ s.avail_bytes_in_open) then none
    else if segment_info.modify_time = NULL_TIME ∧ segment_info.num_extents ≠ 0 then none
    else
      some { s with
        segments := s.segments.set segment segment_info.set_closed,
        num_open := s.num_open - 1,
        num_closed := s.num_closed + 1,
        num_in_journal_open :=
          if segment_info.type = .JOURNAL then s.num_in_journal_open - 1 else s.num_in_journal_open,
        count_close_journal :=
          if segment_info.type = .JOURNAL then s.count_close_journal + 1 else s.count_close_journal,
        count_close_ool :=
          if segment_info.type = .JOURNAL then s.count_close_ool else s.count_close_ool + 1,
        avail_bytes_in_open :=
          s.avail_bytes_in_open - (s.get_segment_size - segment_info.written_to),
        modify_times :=
          if segment_info.modify_time ≠ NULL_TIME
          then segment_info.modify_time ::ₘ s.modify_times
          else s.modify_times }

/-- segments_info_t::update_written_to (async_cleaner.cc); the paddr
argument is split into its segment id and offset. -/
def segments_info_t.update_written_to (s : segments_info_t)
    (type : segment_type_t) (segment new_written_to : Nat) :
    Option segments_info_t :=
  match s.segments[segment]? with
  | none => none
  | some segment_info =>
    if ¬ segment_info.is_open then none
    else if ¬ (new_written_to ≤ s.get_segment_size) then none
    else if segment_info.written_to > new_written_to then none
    else if ¬ (type = segment_info.type) then none
    else if ¬ (new_written_to - segment_info.written_to ≤ s.avail_bytes_in_open) then none
    else
      some { s with
        segments := s.segments.set segment { segment_info with written_to := new_written_to },
        avail_bytes_in_open :=
          s.avail_bytes_in_open - (new_written_to - segment_info.written_to) }

/-- The segment-directory operations named by the spec (4.1). -/
inductive SegOp
  | init_closed (segment seq : Nat) (type : segment_type_t)
      (category : data_category_t) (generation : Nat)
  | mark_open (segment seq : Nat) (type : segment_type_t)
      (category : data_category_t) (generation : Nat)
  | mark_closed (segment : Nat)
  | mark_empty (segment : Nat)
  | update_written_to (type : segment_type_t) (segment new_written_to : Nat)

/-- One segment-directory operation; `none` is an aborted (fatal)
execution. -/
def applySegOp (op : SegOp) (s : segments_info_t) : Option segments_info_t :=
  match op with
  | .init_closed segment seq type category generation =>
      s.init_closed segment seq type category generation
  | .mark_open segment seq type category generation =>
      s.mark_open segment seq type category generation
  | .mark_closed segment => s.mark_closed segment
  | .mark_empty segment => s.mark_empty segment
  | .update_written_to type segment new_written_to =>
      s.update_written_to type segment new_written_to

/-- States reachable from a freshly initialized segment directory by
valid (non-aborting) operations. -/
inductive Reached : segments_info_t → Prop
  | init (nsegments ssize sm_size : Nat) :
      0 < nsegments → 0 < ssize → 0 < sm_size →
      Reached (segmentsInit nsegments ssize sm_size)
  | step (s s' : segments_info_t) (op : SegOp) :
      Reached s → applySegOp op s = some s' → Reached s'

/-- Sum over all OPEN segments of (segment_size - written_to): the
quantity `avail_bytes_in_open` is meant to track (spec 3, invariant
4). -/
def open_avail_sum (s : segments_info_t) : Nat :=
  (s.segments.map (fun info =>
    if info.is_open then s.segment_size - info.written_to else 0)).sum

/-! ## Helper lemmas about list updates -/

/-- Setting an index to the value it already holds leaves the list
unchanged. -/
theorem list_set_self {α} (l : List α) (i : Nat) (x : α) (h : l[i]? = some x) :
    l.set i x = l := by
  induction l generalizing i with
  | nil => simp at h
  | cons a t ih =>
    cases i with
    | zero =>
      simp only [List.getElem?_cons_zero, Option.some.injEq] at h
      simp [h]
    | succ n =>
      simp only [List.getElem?_cons_succ] at h
      simp [ih n h]

/-- Effect of a pointwise list update on a mapped sum. -/
theorem map_sum_set {α} (f : α → Nat) (l : List α) (i : Nat) (x a : α)
    (h : l[i]? = some x) :
    ((l.set i a).map f).sum + f x = (l.map f).sum + f a := by
  induction l generalizing i with
  | nil => simp at h
  | cons b t ih =>
    cases i with
    | zero =>
      simp only [List.getElem?_cons_zero, Option.some.injEq] at h
      subst h
      simp [List.set]
      omega
    | succ n =>
      simp only [List.getElem?_cons_succ] at h
      have := ih n h
      simp only [List.set, List.map_cons, List.sum_cons]
      omega

/-! ## C1: the aggregate-counter invariant -/

/-- The three aggregate equations of the claim: state counters sum to
the number of segments, `avail_bytes_in_open` is the sum over OPEN
segments of (segment_size - written_to), and available bytes combine
the empty segments with the open remainder. -/
def C1Inv (s : segments_info_t) : Prop :=
  s.num_empty + s.num_open + s.num_closed = s.segments.length ∧
  s.avail_bytes_in_open = open_avail_sum s ∧
  s.get_available_bytes = s.num_empty * s.segment_size + s.avail_bytes_in_open

theorem replicate_default_open_sum (n ssize : Nat) :
    ((List.replicate n ({} : segment_info_t)).map
      (fun info => if info.is_open then ssize - info.written_to else 0)).sum = 0 := by
  simp [segment_info_t.is_open]

theorem c1_init (nsegments ssize sm_size : Nat) :
    C1Inv (segmentsInit nsegments ssize sm_size) := by
  refine ⟨?_, ?_, rfl⟩
  · show nsegments + 0 + 0 = (List.replicate nsegments _).length
    simp
  · exact (replicate_default_open_sum nsegments ssize).symm

theorem c1_step_init_closed (s s' : segments_info_t) (segment seq : Nat)
    (type : segment_type_t) (category : data_category_t) (generation : Nat)
    (h : s.init_closed segment seq type category generation = some s')
    (hinv : C1Inv s) : C1Inv s' := by
  obtain ⟨h1, h2, -⟩ := hinv
  unfold segments_info_t.init_closed at h
  simp only [segments_info_t.get_segment_size] at h
  split at h
  · exact Option.noConfusion h
  rename_i segment_info hseg
  split at h
  · exact Option.noConfusion h
  rename_i hempty
  split at h
  · exact Option.noConfusion h
  split at h
  · exact Option.noConfusion h
  split at h
  · exact Option.noConfusion h
  split at h
  · exact Option.noConfusion h
  rename_i info hinfo
  rw [Option.some.injEq] at h
  subst h
  have hemp : segment_info.state = .EMPTY := not_not.mp hempty
  have hinfo2 : info = { segment_info with
      state := .CLOSED, seq := seq, type := type, category := category,
      generation := generation, written_to := s.get_segment_size } := by
    unfold segment_info_t.init_closed at hinfo
    split at hinfo; · exact Option.noConfusion hinfo
    split at hinfo; · exact Option.noConfusion hinfo
    split at hinfo; · exact Option.noConfusion hinfo
    split at hinfo; · exact Option.noConfusion hinfo
    exact (Option.some.inj hinfo).symm
  have hstate : info.state = segment_state_t.CLOSED := by rw [hinfo2]
  have hsum := map_sum_set
    (fun info => if info.is_open then s.segment_size - info.written_to else 0)
    s.segments segment segment_info info hseg
  have hf1 : (if segment_info.is_open then s.segment_size - segment_info.written_to else 0) = 0 :=
    if_neg (by simp [segment_info_t.is_open, hemp])
  have hf2 : (if info.is_open then s.segment_size - info.written_to else 0) = 0 :=
    if_neg (by simp [segment_info_t.is_open, hstate])
  refine ⟨?_, ?_, rfl⟩
  · dsimp only
    simp only [List.length_set]
    omega
  · dsimp only
    unfold open_avail_sum at h2 ⊢
    dsimp only
    simp only [hf1, hf2] at hsum
    omega

theorem c1_step_mark_open (s s' : segments_info_t) (segment seq : Nat)
    (type : segment_type_t) (category : data_category_t) (generation : Nat)
    (h : s.mark_open segment seq type category generation = some s')
    (hinv : C1Inv s) : C1Inv s' := by
  obtain ⟨h1, h2, -⟩ := hinv
  unfold segments_info_t.mark_open at h
  simp only [segments_info_t.get_segment_size] at h
  split at h
  · exact Option.noConfusion h
  rename_i segment_info hseg
  split at h
  · exact Option.noConfusion h
  rename_i hempty
  split at h
  · exact Option.noConfusion h
  split at h
  · exact Option.noConfusion h
  split at h
  · exact Option.noConfusion h
  rename_i info hinfo
  rw [Option.some.injEq] at h
  subst h
  have hemp : segment_info.state = .EMPTY := not_not.mp hempty
  have hinfo2 : info = { segment_info with
      state := .OPEN, seq := seq, type := type, category := category,
      generation := generation, written_to := 0 } := by
    unfold segment_info_t.set_open at hinfo
    split at hinfo; · exact Option.noConfusion hinfo
    split at hinfo; · exact Option.noConfusion hinfo
    split at hinfo; · exact Option.noConfusion hinfo
    split at hinfo; · exact Option.noConfusion hinfo
    exact (Option.some.inj hinfo).symm
  have hstate : info.state = segment_state_t.OPEN := by rw [hinfo2]
  have hwt : info.written_to = 0 := by rw [hinfo2]
  have hsum := map_sum_set
    (fun info => if info.is_open then s.segment_size - info.written_to else 0)
    s.segments segment segment_info info hseg
  have hf1 : (if segment_info.is_open then s.segment_size - segment_info.written_to else 0) = 0 :=
    if_neg (by simp [segment_info_t.is_open, hemp])
  have hf2 : (if info.is_open then s.segment_size - info.written_to else 0) = s.segment_size := by
    rw [if_pos (by simp [segment_info_t.is_open, hstate]), hwt, Nat.sub_zero]
  refine ⟨?_, ?_, rfl⟩
  · dsimp only
    simp only [List.length_set]
    omega
  · dsimp only
    unfold open_avail_sum at h2 ⊢
    dsimp only
    simp only [hf1, hf2] at hsum
    omega

theorem c1_step_mark_closed (s s' : segments_info_t) (segment : Nat)
    (h : s.mark_closed segment = some s')
    (hinv : C1Inv s) : C1Inv s' := by
  obtain ⟨h1, h2, -⟩ := hinv
  unfold segments_info_t.mark_closed at h
  simp only [segments_info_t.get_segment_size] at h
  split at h
  · exact Option.noConfusion h
  rename_i segment_info hseg
  split at h
  · exact Option.noConfusion h
  rename_i hopen0
  split at h
  · exact Option.noConfusion h
  rename_i hnum
  split at h
  · exact Option.noConfusion h
  split at h
  · exact Option.noConfusion h
  rename_i hwt
  split at h
  · exact Option.noConfusion h
  rename_i havail
  split at h
  · exact Option.noConfusion h
  rw [Option.some.injEq] at h
  subst h
  have hopen : segment_info.state = .OPEN := not_not.mp hopen0
  have hwtle : segment_info.written_to ≤ s.get_segment_size := not_not.mp hwt
  have havail2 : s.get_segment_size - segment_info.written_to ≤ s.avail_bytes_in_open :=
    not_not.mp havail
  have hsum := map_sum_set
    (fun info => if info.is_open then s.segment_size - info.written_to else 0)
    s.segments segment segment_info segment_info.set_closed hseg
  have hf1 : (if segment_info.is_open then s.segment_size - segment_info.written_to else 0)
      = s.segment_size - segment_info.written_to :=
    if_pos (by simp [segment_info_t.is_open, hopen])
  have hf2 : (if segment_info.set_closed.is_open
      then s.segment_size - segment_info.set_closed.written_to else 0) = 0 :=
    if_neg (by simp [segment_info_t.is_open, segment_info_t.set_closed])
  refine ⟨?_, ?_, rfl⟩
  · dsimp only
    simp only [List.length_set]
    omega
  · dsimp only
    unfold open_avail_sum at h2 ⊢
    dsimp only
    simp only [hf1, hf2] at hsum
    omega

theorem c1_step_mark_empty (s s' : segments_info_t) (segment : Nat)
    (h : s.mark_empty segment = some s')
    (hinv : C1Inv s) : C1Inv s' := by
  obtain ⟨h1, h2, -⟩ := hinv
  unfold segments_info_t.mark_empty at h
  split at h
  · exact Option.noConfusion h
  rename_i segment_info hseg
  split at h
  · exact Option.noConfusion h
  rename_i hclosed0
  split at h
  · exact Option.noConfusion h
  split at h
  · exact Option.noConfusion h
  rename_i hnum
  split at h <;>
    (split at h
     · exact Option.noConfusion h
     split at h
     · exact Option.noConfusion h
     split at h
     · exact Option.noConfusion h
     rw [Option.some.injEq] at h
     subst h
     have hclosed : segment_info.state = .CLOSED := not_not.mp hclosed0
     have hsum := map_sum_set
       (fun info => if info.is_open then s.segment_size - info.written_to else 0)
       s.segments segment segment_info segment_info.set_empty hseg
     have hf1 : (if segment_info.is_open then s.segment_size - segment_info.written_to else 0) = 0 :=
       if_neg (by simp [segment_info_t.is_open, hclosed])
     have hf2 : (if segment_info.set_empty.is_open
         then s.segment_size - segment_info.set_empty.written_to else 0) = 0 :=
       if_neg (by simp [segment_info_t.is_open, segment_info_t.set_empty])
     refine ⟨?_, ?_, rfl⟩
     · dsimp only
       simp only [List.length_set]
       omega
     · dsimp only
       unfold open_avail_sum at h2 ⊢
       dsimp only
       simp only [hf1, hf2] at hsum
       omega)

theorem c1_step_update_written_to (s s' : segments_info_t)
    (type : segment_type_t) (segment new_written_to : Nat)
    (h : s.update_written_to type segment new_written_to = some s')
    (hinv : C1Inv s) : C1Inv s' := by
  obtain ⟨h1, h2, -⟩ := hinv
  unfold segments_info_t.update_written_to at h
  simp only [segments_info_t.get_segment_size] at h
  split at h
  · exact Option.noConfusion h
  rename_i segment_info hseg
  split at h
  · exact Option.noConfusion h
  rename_i hopen0
  split at h
  · exact Option.noConfusion h
  rename_i hle
  split at h
  · exact Option.noConfusion h
  rename_i hmono
  split at h
  · exact Option.noConfusion h
  split at h
  · exact Option.noConfusion h
  rename_i hdelta
  rw [Option.some.injEq] at h
  subst h
  have hopen : segment_info.state = .OPEN := not_not.mp hopen0
  have hle2 : new_written_to ≤ s.get_segment_size := not_not.mp hle
  have hmono2 : segment_info.written_to ≤ new_written_to := Nat.le_of_not_lt hmono
  have hdelta2 : new_written_to - segment_info.written_to ≤ s.avail_bytes_in_open :=
    not_not.mp hdelta
  have hsum := map_sum_set
    (fun info => if info.is_open then s.segment_size - info.written_to else 0)
    s.segments segment segment_info
    { segment_info with written_to := new_written_to } hseg
  have hf1 : (if segment_info.is_open then s.segment_size - segment_info.written_to else 0)
      = s.segment_size - segment_info.written_to :=
    if_pos (by simp [segment_info_t.is_open, hopen])
  have hf2 : (if ({ segment_info with written_to := new_written_to } : segment_info_t).is_open
      then s.segment_size - ({ segment_info with written_to := new_written_to } :
        segment_info_t).written_to else 0) = s.segment_size - new_written_to :=
    if_pos (by simp [segment_info_t.is_open, hopen])
  refine ⟨?_, ?_, rfl⟩
  · dsimp only
    simp only [List.length_set]
    omega
  · dsimp only
    unfold open_avail_sum at h2 ⊢
    dsimp only
    simp only [hf1, hf2] at hsum
    omega

/-- Every segment-directory operation preserves the aggregate
equations. -/
theorem c1_preserved (s s' : segments_info_t) (op : SegOp)
    (h : applySegOp op s = some s') (hinv : C1Inv s) : C1Inv s' := by
  cases op with
  | init_closed segment seq type category generation =>
    exact c1_step_init_closed s s' segment seq type category generation h hinv
  | mark_open segment seq type category generation =>
    exact c1_step_mark_open s s' segment seq type category generation h hinv
  | mark_closed segment => exact c1_step_mark_closed s s' segment h hinv
  | mark_empty segment => exact c1_step_mark_empty s s' segment h hinv
  | update_written_to type segment new_written_to =>
    exact c1_step_update_written_to s s' type segment new_written_to h hinv


/-- A successful indexed lookup implies the index is in range. -/
theorem getElem_some_lt {α} {l : List α} {i : Nat} {x : α} (h : l[i]? = some x) :
    i < l.length := by
  by_contra hc
  rw [List.getElem?_eq_none (Nat.le_of_not_lt hc)] at h
  exact Option.noConfusion h

/-- All states reachable by valid segment-directory operations satisfy
the aggregate equations. -/
theorem c1_reachable (s : segments_info_t) (h : Reached s) : C1Inv s := by
  induction h with
  | init nsegments ssize sm_size _ _ _ => exact c1_init nsegments ssize sm_size
  | step s s2 op _ happ ih => exact c1_preserved s s2 op happ ih

/-- C1: For every state reachable by a valid sequence of
SegmentDirectory operations (init_closed, mark_open, mark_closed,
mark_empty, update_written_to), num_empty + num_open + num_closed =
total_segments, avail_bytes_in_open equals the sum over all OPEN
segments of (segment_size - written_to), and available_bytes =
num_empty * segment_size + avail_bytes_in_open; and each operation
preserves these equations. -/
theorem C1_aggregate_counter_invariant :
    (∀ s, Reached s →
      s.num_empty + s.num_open + s.num_closed = s.segments.length ∧
      s.avail_bytes_in_open = open_avail_sum s ∧
      s.get_available_bytes = s.num_empty * s.segment_size + s.avail_bytes_in_open) ∧
    (∀ s s2 op, C1Inv s → applySegOp op s = some s2 → C1Inv s2) :=
  ⟨fun s h => c1_reachable s h, fun s s2 op hinv happ => c1_preserved s s2 op happ hinv⟩

/-- Witness for C1 at a concrete reachable state. -/
theorem C1_aggregate_counter_invariant_witness :
    (segmentsInit 2 4096 8192).num_empty + (segmentsInit 2 4096 8192).num_open +
        (segmentsInit 2 4096 8192).num_closed = (segmentsInit 2 4096 8192).segments.length ∧
      (segmentsInit 2 4096 8192).avail_bytes_in_open = open_avail_sum (segmentsInit 2 4096 8192) ∧
      (segmentsInit 2 4096 8192).get_available_bytes =
        (segmentsInit 2 4096 8192).num_empty * (segmentsInit 2 4096 8192).segment_size +
          (segmentsInit 2 4096 8192).avail_bytes_in_open :=
  C1_aggregate_counter_invariant.1 (segmentsInit 2 4096 8192)
    (Reached.init 2 4096 8192 (by decide) (by decide) (by decide))

/-! ## C5: at most one open journal segment, contiguous journal seqs -/

/-- Auxiliary invariant: every OPEN segment of JOURNAL type is the one
recorded in `journal_segment_id`. -/
def journal_inv (s : segments_info_t) : Prop :=
  ∀ i info, s.segments[i]? = some info → info.is_open →
    info.type = .JOURNAL → s.journal_segment_id = some i

theorem journal_inv_init (nsegments ssize sm_size : Nat) :
    journal_inv (segmentsInit nsegments ssize sm_size) := by
  intro i info hi hopen _
  exfalso
  have : info = ({} : segment_info_t) := by
    have hlt := getElem_some_lt hi
    simp only [segmentsInit] at hi
    rw [List.getElem?_replicate] at hi
    simp only [segmentsInit, List.length_replicate] at hlt
    rw [if_pos hlt] at hi
    exact (Option.some.inj hi).symm
  rw [this] at hopen
  simp [segment_info_t.is_open] at hopen


theorem journal_inv_init_closed (s s2 : segments_info_t) (segment seq : Nat)
    (type : segment_type_t) (category : data_category_t) (generation : Nat)
    (h : s.init_closed segment seq type category generation = some s2)
    (hinv : journal_inv s) : journal_inv s2 := by
  unfold segments_info_t.init_closed at h
  simp only [segments_info_t.get_segment_size] at h
  split at h
  · exact Option.noConfusion h
  rename_i segment_info hseg
  split at h
  · exact Option.noConfusion h
  split at h
  · exact Option.noConfusion h
  split at h
  · exact Option.noConfusion h
  split at h
  · exact Option.noConfusion h
  split at h
  · exact Option.noConfusion h
  rename_i info hinfo
  rw [Option.some.injEq] at h
  subst h
  have hstate : info.state = segment_state_t.CLOSED := by
    unfold segment_info_t.init_closed at hinfo
    split at hinfo; · exact Option.noConfusion hinfo
    split at hinfo; · exact Option.noConfusion hinfo
    split at hinfo; · exact Option.noConfusion hinfo
    split at hinfo; · exact Option.noConfusion hinfo
    rw [← Option.some.inj hinfo]
  intro k info2 hk hopen htype
  dsimp only at hk ⊢
  by_cases hks : k = segment
  · subst hks
    rw [List.getElem?_set_eq_of_lt _ (getElem_some_lt hseg)] at hk
    exfalso
    rw [← Option.some.inj hk] at hopen
    simp [segment_info_t.is_open, hstate] at hopen
  · rw [List.getElem?_set_ne (fun hne => hks hne.symm)] at hk
    exact hinv k info2 hk hopen htype

theorem journal_inv_mark_open (s s2 : segments_info_t) (segment seq : Nat)
    (type : segment_type_t) (category : data_category_t) (generation : Nat)
    (h : s.mark_open segment seq type category generation = some s2)
    (hinv : journal_inv s) : journal_inv s2 := by
  unfold segments_info_t.mark_open at h
  simp only [segments_info_t.get_segment_size] at h
  split at h
  · exact Option.noConfusion h
  rename_i segment_info hseg
  split at h
  · exact Option.noConfusion h
  split at h
  · exact Option.noConfusion h
  split at h
  · exact Option.noConfusion h
  rename_i hguard
  split at h
  · exact Option.noConfusion h
  rename_i info hinfo
  rw [Option.some.injEq] at h
  subst h
  have hinfo2 : info = { segment_info with
      state := .OPEN, seq := seq, type := type, category := category,
      generation := generation, written_to := 0 } := by
    unfold segment_info_t.set_open at hinfo
    split at hinfo; · exact Option.noConfusion hinfo
    split at hinfo; · exact Option.noConfusion hinfo
    split at hinfo; · exact Option.noConfusion hinfo
    split at hinfo; · exact Option.noConfusion hinfo
    exact (Option.some.inj hinfo).symm
  have htypeinfo : info.type = type := by rw [hinfo2]
  intro k info2 hk hopen htype
  dsimp only at hk ⊢
  by_cases hj : type = segment_type_t.JOURNAL
  · rw [if_pos hj]
    by_cases hks : k = segment
    · rw [hks]
    · exfalso
      rw [List.getElem?_set_ne (fun hne => hks hne.symm)] at hk
      have hjid := hinv k info2 hk hopen htype
      have hok : s.journal_open_ok seq := by
        by_contra hnot
        exact hguard ⟨hj, hnot⟩
      unfold segments_info_t.journal_open_ok at hok
      rw [hjid] at hok
      simp only [Option.elim] at hok
      rw [hk] at hok
      simp only [Option.elim] at hok
      have hcl := hok.1
      simp only [segment_info_t.is_open] at hopen
      simp only [segment_info_t.is_closed] at hcl
      rw [hopen] at hcl
      exact segment_state_t.noConfusion hcl
  · rw [if_neg hj]
    by_cases hks : k = segment
    · exfalso
      subst hks
      rw [List.getElem?_set_eq_of_lt _ (getElem_some_lt hseg)] at hk
      rw [← Option.some.inj hk] at htype
      rw [htypeinfo] at htype
      exact hj htype
    · rw [List.getElem?_set_ne (fun hne => hks hne.symm)] at hk
      exact hinv k info2 hk hopen htype

theorem journal_inv_mark_closed (s s2 : segments_info_t) (segment : Nat)
    (h : s.mark_closed segment = some s2)
    (hinv : journal_inv s) : journal_inv s2 := by
  unfold segments_info_t.mark_closed at h
  simp only [segments_info_t.get_segment_size] at h
  split at h
  · exact Option.noConfusion h
  rename_i segment_info hseg
  split at h
  · exact Option.noConfusion h
  split at h
  · exact Option.noConfusion h
  split at h
  · exact Option.noConfusion h
  split at h
  · exact Option.noConfusion h
  split at h
  · exact Option.noConfusion h
  split at h
  · exact Option.noConfusion h
  rw [Option.some.injEq] at h
  subst h
  intro k info2 hk hopen htype
  dsimp only at hk ⊢
  by_cases hks : k = segment
  · exfalso
    subst hks
    rw [List.getElem?_set_eq_of_lt _ (getElem_some_lt hseg)] at hk
    rw [← Option.some.inj hk] at hopen
    simp [segment_info_t.is_open, segment_info_t.set_closed] at hopen
  · rw [List.getElem?_set_ne (fun hne => hks hne.symm)] at hk
    exact hinv k info2 hk hopen htype

theorem journal_inv_mark_empty (s s2 : segments_info_t) (segment : Nat)
    (h : s.mark_empty segment = some s2)
    (hinv : journal_inv s) : journal_inv s2 := by
  unfold segments_info_t.mark_empty at h
  split at h
  · exact Option.noConfusion h
  rename_i segment_info hseg
  split at h
  · exact Option.noConfusion h
  split at h
  · exact Option.noConfusion h
  split at h
  · exact Option.noConfusion h
  split at h <;>
    (split at h
     · exact Option.noConfusion h
     split at h
     · exact Option.noConfusion h
     split at h
     · exact Option.noConfusion h
     rw [Option.some.injEq] at h
     subst h
     intro k info2 hk hopen htype
     dsimp only at hk ⊢
     by_cases hks : k = segment
     · exfalso
       subst hks
       rw [List.getElem?_set_eq_of_lt _ (getElem_some_lt hseg)] at hk
       rw [← Option.some.inj hk] at hopen
       simp [segment_info_t.is_open, segment_info_t.set_empty] at hopen
     · rw [List.getElem?_set_ne (fun hne => hks hne.symm)] at hk
       exact hinv k info2 hk hopen htype)

theorem journal_inv_update_written_to (s s2 : segments_info_t)
    (type : segment_type_t) (segment new_written_to : Nat)
    (h : s.update_written_to type segment new_written_to = some s2)
    (hinv : journal_inv s) : journal_inv s2 := by
  unfold segments_info_t.update_written_to at h
  simp only [segments_info_t.get_segment_size] at h
  split at h
  · exact Option.noConfusion h
  rename_i segment_info hseg
  split at h
  · exact Option.noConfusion h
  split at h
  · exact Option.noConfusion h
  split at h
  · exact Option.noConfusion h
  split at h
  · exact Option.noConfusion h
  split at h
  · exact Option.noConfusion h
  rw [Option.some.injEq] at h
  subst h
  intro k info2 hk hopen htype
  dsimp only at hk ⊢
  by_cases hks : k = segment
  · rw [hks] at hk ⊢
    rw [List.getElem?_set_eq_of_lt _ (getElem_some_lt hseg)] at hk
    rw [← Option.some.inj hk] at hopen htype
    simp only [segment_info_t.is_open] at hopen
    exact hinv segment segment_info hseg hopen htype
  · rw [List.getElem?_set_ne (fun hne => hks hne.symm)] at hk
    exact hinv k info2 hk hopen htype

theorem journal_inv_preserved (s s2 : segments_info_t) (op : SegOp)
    (h : applySegOp op s = some s2) (hinv : journal_inv s) : journal_inv s2 := by
  cases op with
  | init_closed segment seq type category generation =>
    exact journal_inv_init_closed s s2 segment seq type category generation h hinv
  | mark_open segment seq type category generation =>
    exact journal_inv_mark_open s s2 segment seq type category generation h hinv
  | mark_closed segment => exact journal_inv_mark_closed s s2 segment h hinv
  | mark_empty segment => exact journal_inv_mark_empty s s2 segment h hinv
  | update_written_to type segment new_written_to =>
    exact journal_inv_update_written_to s s2 type segment new_written_to h hinv

theorem journal_inv_reachable (s : segments_info_t) (h : Reached s) :
    journal_inv s := by
  induction h with
  | init nsegments ssize sm_size _ _ _ => exact journal_inv_init nsegments ssize sm_size
  | step s s2 op _ happ ih => exact journal_inv_preserved s s2 op happ ih


/-- C5: at every reachable state at most one journal segment is OPEN,
and opening a new JOURNAL segment while a journal segment is recorded
requires the recorded one to be CLOSED, of journal type, and with a
sequence number exactly one less than the new one (asserted fatally on
violation: `mark_open` only succeeds when the precondition holds). -/
theorem C5_journal_open_invariant :
    (∀ s : segments_info_t, Reached s → ∀ i j : Nat, ∀ infoi infoj : segment_info_t,
      s.segments[i]? = some infoi → infoi.is_open → infoi.type = .JOURNAL →
      s.segments[j]? = some infoj → infoj.is_open → infoj.type = .JOURNAL →
      i = j) ∧
    (∀ s s2 : segments_info_t, ∀ segment seq : Nat, ∀ category : data_category_t,
      ∀ generation jid : Nat, ∀ last : segment_info_t,
      s.journal_segment_id = some jid →
      s.segments[jid]? = some last →
      s.mark_open segment seq .JOURNAL category generation = some s2 →
      last.is_closed ∧ last.type = .JOURNAL ∧ last.seq + 1 = seq) := by
  constructor
  · intro s hr i j infoi infoj hi hoi hti hj hoj htj
    have hinv := journal_inv_reachable s hr
    have h1 := hinv i infoi hi hoi hti
    have h2 := hinv j infoj hj hoj htj
    rw [h1] at h2
    exact Option.some.inj h2
  · intro s s2 segment seq category generation jid last hjid hlast h
    unfold segments_info_t.mark_open at h
    split at h
    · exact Option.noConfusion h
    split at h
    · exact Option.noConfusion h
    split at h
    · exact Option.noConfusion h
    split at h
    · exact Option.noConfusion h
    rename_i hguard
    have hok : s.journal_open_ok seq := by
      by_contra hnot
      exact hguard ⟨rfl, hnot⟩
    unfold segments_info_t.journal_open_ok at hok
    rw [hjid] at hok
    simp only [Option.elim] at hok
    rw [hlast] at hok
    simp only [Option.elim] at hok
    exact hok

/-- Witness for C5 at a concrete reachable state with one open journal
segment. -/
theorem C5_journal_open_invariant_witness : (0 : Nat) = 0 :=
  C5_journal_open_invariant.1
    ({ segments :=
         [{ state := .OPEN, seq := 0, type := .JOURNAL, category := .METADATA,
            generation := 0, modify_time := 0, num_extents := 0, written_to := 0 }],
       segment_size := 8, journal_segment_id := some 0, num_in_journal_open := 1,
       num_type_journal := 1, num_type_ool := 0, num_open := 1, num_empty := 0,
       num_closed := 0, count_open_journal := 1, count_open_ool := 0,
       count_release_journal := 0, count_release_ool := 0, count_close_journal := 0,
       count_close_ool := 0, total_bytes := 8, avail_bytes_in_open := 8,
       modify_times := 0 } : segments_info_t)
    (Reached.step _ _ (SegOp.mark_open 0 0 .JOURNAL .METADATA 0)
      (Reached.init 1 8 8 (by decide) (by decide) (by decide)) (by decide))
    0 0 _ _ rfl (by decide) rfl rfl (by decide) rfl


/-! ## SpaceTracker (C6, C7) -/

/-- SpaceTrackerSimple: one live-byte counter (int64_t) per segment
(async_cleaner.h declares the container; spec 4.2: "Coarse variant:
single live_bytes per segment").  Flattened to a list indexed by
segment number. -/
structure SpaceTrackerSimple where
  live_bytes_by_segment : List Int
deriving DecidableEq, Repr

/-- Modelled from the spec: SpaceTrackerSimple::allocate is declared in
the missing async_cleaner.h; spec 4.2: the coarse variant increments
the per-segment counter by len (the offset is ignored) and returns the
new usage. -/
def SpaceTrackerSimple.allocate (t : SpaceTrackerSimple) (segment : Nat)
    (_offset len : Nat) : Option (SpaceTrackerSimple × Int) :=
  match t.live_bytes_by_segment[segment]? with
  | none => none
  | some lb =>
    some ({ live_bytes_by_segment := t.live_bytes_by_segment.set segment (lb + len) },
          lb + len)

/-- Modelled from the spec: SpaceTrackerSimple::release decrements the
per-segment counter by len and returns the new usage. -/
def SpaceTrackerSimple.release (t : SpaceTrackerSimple) (segment : Nat)
    (_offset len : Nat) : Option (SpaceTrackerSimple × Int) :=
  match t.live_bytes_by_segment[segment]? with
  | none => none
  | some lb =>
    some ({ live_bytes_by_segment := t.live_bytes_by_segment.set segment (lb - len) },
          lb - len)

/-- Modelled from the spec: SpaceTrackerSimple::get_usage returns the
per-segment live-byte counter. -/
def SpaceTrackerSimple.get_usage (t : SpaceTrackerSimple) (segment : Nat) :
    Option Int :=
  t.live_bytes_by_segment[segment]?

/-- SpaceTrackerDetailed::SegmentMap: a bitmap with one bit per block
plus the live-byte counter. -/
structure SpaceTrackerDetailed.SegmentMap where
  bitmap : List Bool
  used : Int
deriving DecidableEq, Repr

/-- Modelled from the spec: SegmentMap::update_usage (missing
async_cleaner.h) adjusts the live-byte counter by delta and returns the
new value. -/
def SpaceTrackerDetailed.SegmentMap.update_usage
    (m : SpaceTrackerDetailed.SegmentMap) (delta : Int) :
    SpaceTrackerDetailed.SegmentMap × Int :=
  ({ m with used := m.used + delta }, m.used + delta)

/-- The `for (auto i = b; i < e; ++i)` loop of SegmentMap::allocate
(async_cleaner.cc): walks the bitmap with its running index, sets each
bit in [b, e), and reports whether any bit in that range was already
set (the condition under which the source logs an ERROR). -/
def allocLoop : List Bool → Nat → Nat → Nat → List Bool × Bool
  | [], _, _, _ => ([], false)
  | x :: xs, i, b, e =>
    let r := allocLoop xs (i + 1) b e
    if b ≤ i ∧ i < e then (true :: r.1, x || r.2) else (x :: r.1, r.2)

/-- The loop of SegmentMap::release: clears each bit in [b, e) and
reports whether any bit in the range was already clear. -/
def releaseLoop : List Bool → Nat → Nat → Nat → List Bool × Bool
  | [], _, _, _ => ([], false)
  | x :: xs, i, b, e =>
    let r := releaseLoop xs (i + 1) b e
    if b ≤ i ∧ i < e then (false :: r.1, !x || r.2) else (x :: r.1, r.2)

/-- SpaceTrackerDetailed::SegmentMap::allocate (async_cleaner.cc
362-387).  The two alignment asserts become `none` guards; indexing
past the bitmap is undefined behaviour in C++ and is modelled as an
abort; a doubly-allocated block is only flagged (third component), the
bits are set and the usage updated regardless. -/
def SpaceTrackerDetailed.SegmentMap.allocate
    (m : SpaceTrackerDetailed.SegmentMap) (offset len block_size : Nat) :
    Option (SpaceTrackerDetailed.SegmentMap × Int × Bool) :=
  if block_size = 0 then none
  else if ¬ (offset % block_size = 0) then none
  else if ¬ (len % block_size = 0) then none
  else if ¬ ((offset + len) / block_size ≤ m.bitmap.length) then none
  else
    let b := offset / block_size
    let e := (offset + len) / block_size
    let r := allocLoop m.bitmap 0 b e
    let u := SpaceTrackerDetailed.SegmentMap.update_usage { m with bitmap := r.1 } (len : Int)
    some (u.1, u.2, r.2)

/-- SpaceTrackerDetailed::SegmentMap::release (async_cleaner.cc
389-414): clears the bits, flags (without aborting) blocks that were
already clear, and updates the usage by -len. -/
def SpaceTrackerDetailed.SegmentMap.release
    (m : SpaceTrackerDetailed.SegmentMap) (offset len block_size : Nat) :
    Option (SpaceTrackerDetailed.SegmentMap × Int × Bool) :=
  if block_size = 0 then none
  else if ¬ (offset % block_size = 0) then none
  else if ¬ (len % block_size = 0) then none
  else if ¬ ((offset + len) / block_size ≤ m.bitmap.length) then none
  else
    let b := offset / block_size
    let e := (offset + len) / block_size
    let r := releaseLoop m.bitmap 0 b e
    let u := SpaceTrackerDetailed.SegmentMap.update_usage { m with bitmap := r.1 } (-(len : Int))
    some (u.1, u.2, r.2)

theorem allocLoop_length (l : List Bool) (k b e : Nat) :
    (allocLoop l k b e).1.length = l.length := by
  induction l generalizing k with
  | nil => rfl
  | cons x xs ih => by_cases h : b ≤ k ∧ k < e <;> simp [allocLoop, h, ih]

theorem releaseLoop_length (l : List Bool) (k b e : Nat) :
    (releaseLoop l k b e).1.length = l.length := by
  induction l generalizing k with
  | nil => rfl
  | cons x xs ih => by_cases h : b ≤ k ∧ k < e <;> simp [releaseLoop, h, ih]

theorem allocLoop_getElem (l : List Bool) (k b e i : Nat) :
    ((allocLoop l k b e).1)[i]? =
      if b ≤ k + i ∧ k + i < e then (l[i]?).map (fun _ => true) else l[i]? := by
  induction l generalizing k i with
  | nil => simp [allocLoop]
  | cons x xs ih =>
    cases i with
    | zero =>
      by_cases h : b ≤ k ∧ k < e <;>
        simp [allocLoop, h, Nat.add_zero]
    | succ n =>
      have hix := ih (k + 1) n
      rw [show k + 1 + n = k + (n + 1) by omega] at hix
      by_cases h : b ≤ k ∧ k < e <;>
        simp [allocLoop, h, hix]

theorem releaseLoop_getElem (l : List Bool) (k b e i : Nat) :
    ((releaseLoop l k b e).1)[i]? =
      if b ≤ k + i ∧ k + i < e then (l[i]?).map (fun _ => false) else l[i]? := by
  induction l generalizing k i with
  | nil => simp [releaseLoop]
  | cons x xs ih =>
    cases i with
    | zero =>
      by_cases h : b ≤ k ∧ k < e <;>
        simp [releaseLoop, h, Nat.add_zero]
    | succ n =>
      have hix := ih (k + 1) n
      rw [show k + 1 + n = k + (n + 1) by omega] at hix
      by_cases h : b ≤ k ∧ k < e <;>
        simp [releaseLoop, h, hix]

theorem allocLoop_err (l : List Bool) (k b e : Nat) :
    (allocLoop l k b e).2 = true ↔
      ∃ i, b ≤ k + i ∧ k + i < e ∧ l[i]? = some true := by
  induction l generalizing k with
  | nil => simp [allocLoop]
  | cons x xs ih =>
    by_cases h : b ≤ k ∧ k < e
    · simp only [allocLoop, if_pos h, Bool.or_eq_true]
      constructor
      · rintro (hx | hr)
        · exact ⟨0, by omega, by omega, by simp [hx]⟩
        · obtain ⟨i, h1, h2, h3⟩ := (ih (k + 1)).mp hr
          exact ⟨i + 1, by omega, by omega, by simpa using h3⟩
      · rintro ⟨i, h1, h2, h3⟩
        cases i with
        | zero => left; simpa using h3
        | succ n =>
          right
          exact (ih (k + 1)).mpr ⟨n, by omega, by omega, by simpa using h3⟩
    · simp only [allocLoop, if_neg h]
      constructor
      · intro hr
        obtain ⟨i, h1, h2, h3⟩ := (ih (k + 1)).mp hr
        exact ⟨i + 1, by omega, by omega, by simpa using h3⟩
      · rintro ⟨i, h1, h2, h3⟩
        cases i with
        | zero => exact absurd (by omega : b ≤ k ∧ k < e) h
        | succ n =>
          exact (ih (k + 1)).mpr ⟨n, by omega, by omega, by simpa using h3⟩

theorem releaseLoop_err (l : List Bool) (k b e : Nat) :
    (releaseLoop l k b e).2 = true ↔
      ∃ i, b ≤ k + i ∧ k + i < e ∧ l[i]? = some false := by
  induction l generalizing k with
  | nil => simp [releaseLoop]
  | cons x xs ih =>
    by_cases h : b ≤ k ∧ k < e
    · simp only [releaseLoop, if_pos h, Bool.or_eq_true]
      constructor
      · rintro (hx | hr)
        · exact ⟨0, by omega, by omega, by simp [Bool.not_eq_true' .. |>.mp hx]⟩
        · obtain ⟨i, h1, h2, h3⟩ := (ih (k + 1)).mp hr
          exact ⟨i + 1, by omega, by omega, by simpa using h3⟩
      · rintro ⟨i, h1, h2, h3⟩
        cases i with
        | zero =>
          left
          have : x = false := by simpa using h3
          simp [this]
        | succ n =>
          right
          exact (ih (k + 1)).mpr ⟨n, by omega, by omega, by simpa using h3⟩
    · simp only [releaseLoop, if_neg h]
      constructor
      · intro hr
        obtain ⟨i, h1, h2, h3⟩ := (ih (k + 1)).mp hr
        exact ⟨i + 1, by omega, by omega, by simpa using h3⟩
      · rintro ⟨i, h1, h2, h3⟩
        cases i with
        | zero => exact absurd (by omega : b ≤ k ∧ k < e) h
        | succ n =>
          exact (ih (k + 1)).mpr ⟨n, by omega, by omega, by simpa using h3⟩

/-- Releasing right after allocating restores the bitmap provided no
bit in the range was set beforehand (the allocate error flag is
clear). -/
theorem release_alloc_loop (l : List Bool) (k b e : Nat)
    (hclear : (allocLoop l k b e).2 = false) :
    (releaseLoop (allocLoop l k b e).1 k b e).1 = l := by
  induction l generalizing k with
  | nil => rfl
  | cons x xs ih =>
    by_cases h : b ≤ k ∧ k < e
    · simp only [allocLoop, if_pos h, Bool.or_eq_false_iff] at hclear ⊢
      simp only [releaseLoop, if_pos h]
      rw [ih (k + 1) hclear.2, hclear.1]
    · simp only [allocLoop, if_neg h] at hclear ⊢
      simp only [releaseLoop, if_neg h]
      rw [ih (k + 1) hclear]


/-- C6 (amended): in the detailed SpaceTracker, allocate on a
block-aligned range checks that every bit in [offset, offset+len) was
previously clear and release checks that every bit was previously set;
a violation is detected and logged as a consistency error (the error
flag of the loop), but it is NOT fatal: the operation continues,
unconditionally setting (resp. clearing) the bits and adjusting the
usage counter by +len (resp. -len). -/
theorem C6_detailed_double_allocate_logged_not_fatal :
    (∀ (m : SpaceTrackerDetailed.SegmentMap) (offset len block_size : Nat)
        (m2 : SpaceTrackerDetailed.SegmentMap) (u : Int) (err : Bool),
      m.allocate offset len block_size = some (m2, u, err) →
      (err = true ↔ ∃ i, offset / block_size ≤ i ∧
          i < (offset + len) / block_size ∧ m.bitmap[i]? = some true) ∧
      m2.used = m.used + len ∧ u = m.used + len ∧
      (∀ i, offset / block_size ≤ i → i < (offset + len) / block_size →
        m2.bitmap[i]? = some true) ∧
      (∀ i, ¬ (offset / block_size ≤ i ∧ i < (offset + len) / block_size) →
        m2.bitmap[i]? = m.bitmap[i]?)) ∧
    (∀ (m : SpaceTrackerDetailed.SegmentMap) (offset len block_size : Nat)
        (m2 : SpaceTrackerDetailed.SegmentMap) (u : Int) (err : Bool),
      m.release offset len block_size = some (m2, u, err) →
      (err = true ↔ ∃ i, offset / block_size ≤ i ∧
          i < (offset + len) / block_size ∧ m.bitmap[i]? = some false) ∧
      m2.used = m.used - len ∧ u = m.used - len ∧
      (∀ i, offset / block_size ≤ i → i < (offset + len) / block_size →
        m2.bitmap[i]? = some false) ∧
      (∀ i, ¬ (offset / block_size ≤ i ∧ i < (offset + len) / block_size) →
        m2.bitmap[i]? = m.bitmap[i]?)) := by
  constructor
  · intro m offset len block_size m2 u err h
    unfold SpaceTrackerDetailed.SegmentMap.allocate at h
    split at h
    · exact Option.noConfusion h
    split at h
    · exact Option.noConfusion h
    split at h
    · exact Option.noConfusion h
    split at h
    · exact Option.noConfusion h
    rename_i hrange0
    have hrange : (offset + len) / block_size ≤ m.bitmap.length := not_not.mp hrange0
    simp only [SpaceTrackerDetailed.SegmentMap.update_usage, Option.some.injEq,
      Prod.mk.injEq] at h
    obtain ⟨hm2, hu, herr⟩ := h
    subst hm2
    subst hu
    subst herr
    refine ⟨?_, rfl, rfl, ?_, ?_⟩
    · have herr2 := allocLoop_err m.bitmap 0 (offset / block_size)
        ((offset + len) / block_size)
      simpa using herr2
    · intro i h1 h2
      have hg := allocLoop_getElem m.bitmap 0 (offset / block_size)
        ((offset + len) / block_size) i
      rw [Nat.zero_add] at hg
      show (allocLoop m.bitmap 0 _ _).1[i]? = some true
      rw [hg, if_pos ⟨h1, h2⟩, List.getElem?_eq_getElem (by omega)]
      rfl
    · intro i hni
      have hg := allocLoop_getElem m.bitmap 0 (offset / block_size)
        ((offset + len) / block_size) i
      rw [Nat.zero_add] at hg
      show (allocLoop m.bitmap 0 _ _).1[i]? = m.bitmap[i]?
      rw [hg, if_neg hni]
  · intro m offset len block_size m2 u err h
    unfold SpaceTrackerDetailed.SegmentMap.release at h
    split at h
    · exact Option.noConfusion h
    split at h
    · exact Option.noConfusion h
    split at h
    · exact Option.noConfusion h
    split at h
    · exact Option.noConfusion h
    rename_i hrange0
    have hrange : (offset + len) / block_size ≤ m.bitmap.length := not_not.mp hrange0
    simp only [SpaceTrackerDetailed.SegmentMap.update_usage, Option.some.injEq,
      Prod.mk.injEq] at h
    obtain ⟨hm2, hu, herr⟩ := h
    subst hm2
    subst hu
    subst herr
    refine ⟨?_, by show m.used + -(len : Int) = m.used - len; ring,
      by show m.used + -(len : Int) = m.used - len; ring, ?_, ?_⟩
    · have herr2 := releaseLoop_err m.bitmap 0 (offset / block_size)
        ((offset + len) / block_size)
      simpa using herr2
    · intro i h1 h2
      have hg := releaseLoop_getElem m.bitmap 0 (offset / block_size)
        ((offset + len) / block_size) i
      rw [Nat.zero_add] at hg
      show (releaseLoop m.bitmap 0 _ _).1[i]? = some false
      rw [hg, if_pos ⟨h1, h2⟩, List.getElem?_eq_getElem (by omega)]
      rfl
    · intro i hni
      have hg := releaseLoop_getElem m.bitmap 0 (offset / block_size)
        ((offset + len) / block_size) i
      rw [Nat.zero_add] at hg
      show (releaseLoop m.bitmap 0 _ _).1[i]? = m.bitmap[i]?
      rw [hg, if_neg hni]

/-- C6 counterexample: allocating a block whose bit is already set is
NOT a fatal abort.  The call returns normally (`some`, not `none`):
the double allocation is merely flagged (error component `true`), the
bit is set again and the usage counter is still increased by len, so
execution continues where the claim requires an abort. -/
theorem C6_counterexample :
    SpaceTrackerDetailed.SegmentMap.allocate ⟨[true], 0⟩ 0 1 1
      = some (⟨[true], 1⟩, 1, true) := by decide

/-- Witness for C6 at a concrete clean allocation. -/
theorem C6_witness :
    (⟨[true], 1⟩ : SpaceTrackerDetailed.SegmentMap).used
      = (⟨[false], 0⟩ : SpaceTrackerDetailed.SegmentMap).used + (1 : Nat) :=
  (C6_detailed_double_allocate_logged_not_fatal.1
    ⟨[false], 0⟩ 0 1 1 ⟨[true], 1⟩ 1 false (by decide)).2.1

/-- Evaluation of SegmentMap::allocate when all of its guards hold. -/
theorem segmentMap_allocate_eq (m : SpaceTrackerDetailed.SegmentMap)
    (offset len block_size : Nat) (hbs : ¬ block_size = 0)
    (ho : offset % block_size = 0) (hl : len % block_size = 0)
    (hr : (offset + len) / block_size ≤ m.bitmap.length) :
    m.allocate offset len block_size =
      some (⟨(allocLoop m.bitmap 0 (offset / block_size)
          ((offset + len) / block_size)).1, m.used + (len : Int)⟩,
        m.used + (len : Int),
        (allocLoop m.bitmap 0 (offset / block_size)
          ((offset + len) / block_size)).2) := by
  unfold SpaceTrackerDetailed.SegmentMap.allocate
  rw [if_neg hbs, if_neg (not_not_intro ho), if_neg (not_not_intro hl),
    if_neg (not_not_intro hr)]
  rfl

/-- Evaluation of SegmentMap::release when all of its guards hold. -/
theorem segmentMap_release_eq (m : SpaceTrackerDetailed.SegmentMap)
    (offset len block_size : Nat) (hbs : ¬ block_size = 0)
    (ho : offset % block_size = 0) (hl : len % block_size = 0)
    (hr : (offset + len) / block_size ≤ m.bitmap.length) :
    m.release offset len block_size =
      some (⟨(releaseLoop m.bitmap 0 (offset / block_size)
          ((offset + len) / block_size)).1, m.used + -(len : Int)⟩,
        m.used + -(len : Int),
        (releaseLoop m.bitmap 0 (offset / block_size)
          ((offset + len) / block_size)).2) := by
  unfold SpaceTrackerDetailed.SegmentMap.release
  rw [if_neg hbs, if_neg (not_not_intro ho), if_neg (not_not_intro hl),
    if_neg (not_not_intro hr)]
  rfl

/-- Inversion of a successful SegmentMap::allocate. -/
theorem segmentMap_allocate_some (m : SpaceTrackerDetailed.SegmentMap)
    (offset len block_size : Nat) (m2 : SpaceTrackerDetailed.SegmentMap)
    (u : Int) (err : Bool)
    (h : m.allocate offset len block_size = some (m2, u, err)) :
    ¬ block_size = 0 ∧ offset % block_size = 0 ∧ len % block_size = 0 ∧
    (offset + len) / block_size ≤ m.bitmap.length ∧
    m2 = ⟨(allocLoop m.bitmap 0 (offset / block_size)
        ((offset + len) / block_size)).1, m.used + (len : Int)⟩ ∧
    u = m.used + (len : Int) ∧
    err = (allocLoop m.bitmap 0 (offset / block_size)
        ((offset + len) / block_size)).2 := by
  unfold SpaceTrackerDetailed.SegmentMap.allocate at h
  split at h
  · exact Option.noConfusion h
  rename_i hbs
  split at h
  · exact Option.noConfusion h
  rename_i ho
  split at h
  · exact Option.noConfusion h
  rename_i hl
  split at h
  · exact Option.noConfusion h
  rename_i hr
  simp only [SpaceTrackerDetailed.SegmentMap.update_usage, Option.some.injEq,
    Prod.mk.injEq] at h
  obtain ⟨hm2, hu, herr⟩ := h
  exact ⟨hbs, not_not.mp ho, not_not.mp hl, not_not.mp hr, hm2.symm, hu.symm, herr.symm⟩

/-- C7 (amended): allocate(r) followed by release(r) returns the usage
to its prior value in both trackers (in the coarse tracker the whole
state is restored); in the detailed tracker the bitmap — and hence the
whole SegmentMap — returns to its prior state provided every block of
r was clear before the allocate (no allocate error).  If some block
was already set, the release clears it, so the bitmap is not restored
in general (see the counterexample). -/
theorem C7_allocate_release_roundtrip :
    (∀ (t : SpaceTrackerSimple) (segment offset len : Nat)
        (t1 : SpaceTrackerSimple) (u1 : Int) (t2 : SpaceTrackerSimple) (u2 : Int),
      t.allocate segment offset len = some (t1, u1) →
      t1.release segment offset len = some (t2, u2) →
      t2 = t) ∧
    (∀ (m : SpaceTrackerDetailed.SegmentMap) (offset len block_size : Nat)
        (m1 : SpaceTrackerDetailed.SegmentMap) (u1 : Int) (e1 : Bool)
        (m2 : SpaceTrackerDetailed.SegmentMap) (u2 : Int) (e2 : Bool),
      m.allocate offset len block_size = some (m1, u1, e1) →
      m1.release offset len block_size = some (m2, u2, e2) →
      m2.used = m.used ∧ (e1 = false → m2 = m)) := by
  constructor
  · intro t segment offset len t1 u1 t2 u2 h1 h2
    unfold SpaceTrackerSimple.allocate at h1
    split at h1
    · exact Option.noConfusion h1
    rename_i lb hseg
    simp only [Option.some.injEq, Prod.mk.injEq] at h1
    obtain ⟨ht1, hu1⟩ := h1
    subst ht1
    unfold SpaceTrackerSimple.release at h2
    rw [show ({ live_bytes_by_segment := t.live_bytes_by_segment.set segment (lb + ↑len) } :
          SpaceTrackerSimple).live_bytes_by_segment
        = t.live_bytes_by_segment.set segment (lb + ↑len) from rfl,
      List.getElem?_set_eq_of_lt _ (getElem_some_lt hseg)] at h2
    simp only [Option.some.injEq, Prod.mk.injEq] at h2
    obtain ⟨ht2, hu2⟩ := h2
    rw [← ht2]
    show ({ live_bytes_by_segment :=
              (t.live_bytes_by_segment.set segment (lb + ↑len)).set segment
                (lb + ↑len - ↑len) } : SpaceTrackerSimple) = t
    rw [List.set_set, add_sub_cancel_right, list_set_self _ _ _ hseg]
  · intro m offset len block_size m1 u1 e1 m2 u2 e2 h1 h2
    obtain ⟨hbs, ho, hl, hr, hm1, hu1, he1⟩ :=
      segmentMap_allocate_some m offset len block_size m1 u1 e1 h1
    subst hm1
    have hrange1 : (offset + len) / block_size ≤
        (allocLoop m.bitmap 0 (offset / block_size)
          ((offset + len) / block_size)).1.length := by
      rw [allocLoop_length]
      exact hr
    rw [segmentMap_release_eq _ offset len block_size hbs ho hl hrange1] at h2
    simp only [Option.some.injEq, Prod.mk.injEq] at h2
    obtain ⟨hm2, hu2, he2⟩ := h2
    rw [← hm2]
    constructor
    · show m.used + (len : Int) + -(len : Int) = m.used
      ring
    · intro hclear
      have hcl : (allocLoop m.bitmap 0 (offset / block_size)
          ((offset + len) / block_size)).2 = false := by
        rw [← he1, hclear]
      show ({ bitmap :=
                (releaseLoop (allocLoop m.bitmap 0 (offset / block_size)
                    ((offset + len) / block_size)).1 0 (offset / block_size)
                  ((offset + len) / block_size)).1,
              used := m.used + (len : Int) + -(len : Int) } :
            SpaceTrackerDetailed.SegmentMap) = m
      rw [release_alloc_loop m.bitmap 0 _ _ hcl]
      have hused : m.used + (len : Int) + -(len : Int) = m.used := by ring
      rw [hused]

/-- C7 counterexample: starting from a SegmentMap whose single bit is
already set, allocate then release of that block leaves the bit clear:
the bitmap is NOT returned to its prior state. -/
theorem C7_counterexample :
    SpaceTrackerDetailed.SegmentMap.allocate ⟨[true], 0⟩ 0 1 1
        = some (⟨[true], 1⟩, 1, true) ∧
      SpaceTrackerDetailed.SegmentMap.release ⟨[true], 1⟩ 0 1 1
        = some (⟨[false], 0⟩, 0, false) ∧
      (⟨[false], 0⟩ : SpaceTrackerDetailed.SegmentMap).bitmap
        ≠ (⟨[true], 0⟩ : SpaceTrackerDetailed.SegmentMap).bitmap := by decide

/-- Witness for C7 at a concrete clean allocate/release pair. -/
theorem C7_witness :
    (⟨[false], 0⟩ : SpaceTrackerDetailed.SegmentMap)
      = (⟨[false], 0⟩ : SpaceTrackerDetailed.SegmentMap) :=
  (C7_allocate_release_roundtrip.2 ⟨[false], 0⟩ 0 1 1 ⟨[true], 1⟩ 1 false
    ⟨[false], 0⟩ 0 false (by decide) (by decide)).2 rfl


/-! ## AsyncCleaner state (C2, C3, C4, C8, C10) -/

/-- SpaceTrackerDetailed: one SegmentMap per segment plus the device
block size (block_size_by_segment_manager collapsed to the single
segment manager of this model). -/
structure SpaceTrackerDetailed where
  segment_usage : List SpaceTrackerDetailed.SegmentMap
  block_size : Nat
deriving DecidableEq, Repr

/-- Modelled from the spec: SpaceTrackerDetailed::allocate (missing
async_cleaner.h) dispatches to the per-segment SegmentMap::allocate of
async_cleaner.cc with the device block size and returns the new
usage. -/
def SpaceTrackerDetailed.allocate (t : SpaceTrackerDetailed)
    (segment offset len : Nat) : Option (SpaceTrackerDetailed × Int) :=
  match t.segment_usage[segment]? with
  | none => none
  | some m =>
    match m.allocate offset len t.block_size with
    | none => none
    | some (m2, u, _error) =>
      some ({ t with segment_usage := t.segment_usage.set segment m2 }, u)

/-- Modelled from the spec: SpaceTrackerDetailed::release dispatches to
SegmentMap::release. -/
def SpaceTrackerDetailed.release (t : SpaceTrackerDetailed)
    (segment offset len : Nat) : Option (SpaceTrackerDetailed × Int) :=
  match t.segment_usage[segment]? with
  | none => none
  | some m =>
    match m.release offset len t.block_size with
    | none => none
    | some (m2, u, _error) =>
      some ({ t with segment_usage := t.segment_usage.set segment m2 }, u)

/-- Modelled from the spec: SpaceTrackerDetailed::get_usage returns the
per-segment live-byte counter. -/
def SpaceTrackerDetailed.get_usage (t : SpaceTrackerDetailed) (segment : Nat) :
    Option Int :=
  (t.segment_usage[segment]?).map SpaceTrackerDetailed.SegmentMap.used

/-- The polymorphic SpaceTrackerI handle: coarse or detailed variant
(spec 9: "Model as a tagged variant or as an interface"). -/
inductive SpaceTrackerI
  | simple (t : SpaceTrackerSimple)
  | detailed (t : SpaceTrackerDetailed)
deriving DecidableEq, Repr

def SpaceTrackerI.allocate (t : SpaceTrackerI) (segment offset len : Nat) :
    Option (SpaceTrackerI × Int) :=
  match t with
  | .simple tr =>
    match tr.allocate segment offset len with
    | none => none
    | some (tr2, u) => some (.simple tr2, u)
  | .detailed tr =>
    match tr.allocate segment offset len with
    | none => none
    | some (tr2, u) => some (.detailed tr2, u)

def SpaceTrackerI.release (t : SpaceTrackerI) (segment offset len : Nat) :
    Option (SpaceTrackerI × Int) :=
  match t with
  | .simple tr =>
    match tr.release segment offset len with
    | none => none
    | some (tr2, u) => some (.simple tr2, u)
  | .detailed tr =>
    match tr.release segment offset len with
    | none => none
    | some (tr2, u) => some (.detailed tr2, u)

def SpaceTrackerI.get_usage (t : SpaceTrackerI) (segment : Nat) : Option Int :=
  match t with
  | .simple tr => tr.get_usage segment
  | .detailed tr => tr.get_usage segment

/-- paddr_types_t from seastore_types.h. -/
inductive paddr_types_t
  | SEGMENT
  | RANDOM_BLOCK
  | RESERVED
deriving DecidableEq, Repr

/-- paddr_t (seastore_types.h): a segment-backed address carries the
segment id and intra-segment offset. -/
inductive paddr_t
  | seg (segment : Nat) (off : Nat)
  | blk (off : Nat)
  | res (off : Nat)
deriving DecidableEq, Repr

/-- paddr_t::get_addr_type. -/
def paddr_t.get_addr_type : paddr_t → paddr_types_t
  | .seg _ _ => .SEGMENT
  | .blk _ => .RANDOM_BLOCK
  | .res _ => .RESERVED

/-- The fields of AsyncCleaner::stats touched by the modelled
operations (the metrics histogram of register_metrics is out of
scope). -/
structure cleaner_stats_t where
  used_bytes : Nat := 0
  projected_used_bytes : Nat := 0
  projected_used_bytes_sum : Nat := 0
  projected_count : Nat := 0
  io_count : Nat := 0
  io_blocking_num : Nat := 0
  io_blocked_count : Nat := 0
  io_blocked_count_trim : Nat := 0
  io_blocked_count_reclaim : Nat := 0
  io_blocked_sum : Nat := 0
deriving DecidableEq, Repr

/-- The AsyncCleaner state relevant to the modelled operations.
`journal_dirty_tail_seq` carries the segment seq of the persisted
dirty tail (NULL_SEG_SEQ when unset).  Modelled from the spec:
`should_block_trim`/`should_block_reclaim` stand for the threshold
predicates should_block_on_trim/should_block_on_reclaim computed in
the missing async_cleaner.h from config ratios (spec 4.5); they are
carried as abstract state fields since no claim depends on their
arithmetic. -/
structure AsyncCleanerSt where
  segments : segments_info_t
  space_tracker : SpaceTrackerI
  stats : cleaner_stats_t
  init_complete : Bool
  disable_trim : Bool
  blocked_io_wake : Bool
  journal_dirty_tail_seq : Nat
  should_block_trim : Bool
  should_block_reclaim : Bool
deriving DecidableEq

/-- Modelled from the spec: AsyncCleaner::calc_utilization is declared
in the missing async_cleaner.h; glossary: "Utilization: live_bytes /
segment_size for a segment". -/
def AsyncCleanerSt.calc_utilization (st : AsyncCleanerSt) (id : Nat) : Option ℚ :=
  match st.space_tracker.get_usage id with
  | none => none
  | some u =>
    if st.segments.segment_size = 0 then none
    else some ((u : ℚ) / (st.segments.segment_size : ℚ))

/-- std::numeric_limits<double>::max() = (2 - 2^-52) * 2^1023,
idealized as an exact rational. -/
def DOUBLE_MAX : ℚ := 2 ^ 1024 - 2 ^ 971

/-- The build-time GC formula selection (anonymous namespace at the top
of async_cleaner.cc): gc_formula = COST_BENEFIT. -/
inductive gc_formula_t
  | GREEDY
  | BENEFIT
  | COST_BENEFIT
deriving DecidableEq, Repr

def gc_formula : gc_formula_t := .COST_BENEFIT

/-- AsyncCleaner::calc_gc_benefit_cost (async_cleaner.cc 714-754).
`double` arithmetic is idealized over ℚ and time points are their
time_since_epoch().count() values; the leading
ceph_assert(util >= 0 && util < 1) and the map lookups are the `none`
branches. -/
def AsyncCleanerSt.calc_gc_benefit_cost (st : AsyncCleanerSt) (id : Nat)
    (now_time bound_time : Int) : Option ℚ :=
  match st.calc_utilization id with
  | none => none
  | some util =>
    if ¬ (0 ≤ util ∧ util < 1) then none
    else if gc_formula = .GREEDY then some (1 - util)
    else if gc_formula = .COST_BENEFIT then
      if util = 0 then some DOUBLE_MAX
      else
        match st.segments.segments[id]? with
        | none => none
        | some info =>
          let age_segment : ℚ := (info.modify_time : ℚ)
          let age_now : ℚ := (now_time : ℚ)
          if age_now > age_segment then
            some ((1 - util) * (age_now - age_segment) / (2 * util))
          else
            some ((1 - util) / (2 * util))
    else
      match st.segments.segments[id]? with
      | none => none
      | some info =>
        if bound_time ≠ NULL_TIME ∧ info.modify_time ≠ NULL_TIME ∧
            now_time > info.modify_time then
          if ¬ (bound_time ≤ info.modify_time) then none
          else
            let age_factor : ℚ := ((now_time : ℚ) - (info.modify_time : ℚ)) /
              ((now_time : ℚ) - (bound_time : ℚ))
            some ((1 - 2 * age_factor) * util * util +
              (2 * age_factor - 2) * util + 1)
        else
          some ((1 - 2 * (1 / 2 : ℚ)) * util * util +
            (2 * (1 / 2 : ℚ) - 2) * util + 1)

/-- Modelled from the spec: segment_info_t::is_in_journal (missing
async_cleaner.h).  Spec 4.3/9: a closed journal segment whose seq lies
between the dirty tail's segment and the current journal head is "in
journal" and unreclaimable; the head bound is implicit (no journal
segment carries a seq above the head), so the predicate is: journal
type with seq at or after the journal tail's segment seq. -/
def segment_info_t.is_in_journal (info : segment_info_t) (tail_seq : Nat) : Prop :=
  info.type = .JOURNAL ∧ tail_seq ≤ info.seq

instance (info : segment_info_t) (tail_seq : Nat) :
    Decidable (info.is_in_journal tail_seq) := by
  unfold segment_info_t.is_in_journal; infer_instance

/-- Modelled from the spec: AsyncCleaner::get_journal_tail (missing
async_cleaner.h) — the journal tail that victim selection checks
against; spec 4.3 refers to the persisted dirty tail, carried here as
that tail's segment seq. -/
def AsyncCleanerSt.get_journal_tail (st : AsyncCleanerSt) : Nat :=
  st.journal_dirty_tail_seq

/-- The candidate filter of AsyncCleaner::get_next_reclaim_segment:
closed and not part of the current journal. -/
def reclaim_candidate (st : AsyncCleanerSt) (info : segment_info_t) : Prop :=
  info.is_closed ∧ ¬ info.is_in_journal st.get_journal_tail

instance (st : AsyncCleanerSt) (info : segment_info_t) :
    Decidable (reclaim_candidate st info) := by
  unfold reclaim_candidate; infer_instance

/-- The selection loop of AsyncCleaner::get_next_reclaim_segment over
the (id, segment_info) pairs, carrying the best id and
max_benefit_cost; `none` if a score computation aborts. -/
def selLoop (st : AsyncCleanerSt) (now_time bound_time : Int) :
    List (Nat × segment_info_t) → Option Nat → ℚ → Option (Option Nat × ℚ)
  | [], id, mx => some (id, mx)
  | (i, info) :: rest, id, mx =>
    if info.is_closed ∧ ¬ info.is_in_journal st.get_journal_tail then
      match st.calc_gc_benefit_cost i now_time bound_time with
      | none => none
      | some benefit_cost =>
        if benefit_cost > mx then
          selLoop st now_time bound_time rest (some i) benefit_cost
        else
          selLoop st now_time bound_time rest id mx
    else selLoop st now_time bound_time rest id mx

/-- AsyncCleaner::get_next_reclaim_segment (async_cleaner.cc
1314-1354).  now_time is the sampled lowres clock (a parameter here);
since gc_formula is not BENEFIT, bound_time = NULL_TIME as in the
source.  The closing ceph_abort("impossible!") when no candidate was
selected is the `none` result; max_benefit_cost starts at 0. -/
def AsyncCleanerSt.get_next_reclaim_segment (st : AsyncCleanerSt)
    (now_time : Int) : Option Nat :=
  match selLoop st now_time NULL_TIME st.segments.segments.enum none 0 with
  | none => none
  | some (none, _) => none
  | some (some id, _) => some id


/-- C2: under the default COST_BENEFIT formula, the reclaim score of a
segment with utilization u and modify time m at clock time now is
(1-u)(now-m)/(2u) when 0 < u < 1 and now > m; when u = 0 the score is
the maximal double value (std::numeric_limits<double>::max(), the
spec's "+∞"); and when the clock is non-monotone (m at or after now)
the score falls back to (1-u)/(2u). -/
theorem C2_cost_benefit_formula :
    ∀ (st : AsyncCleanerSt) (id : Nat) (now_time bound_time : Int)
      (u : ℚ) (info : segment_info_t),
      st.calc_utilization id = some u →
      st.segments.segments[id]? = some info →
      info.is_closed →
      ((0 < u → u < 1 → info.modify_time < now_time →
        st.calc_gc_benefit_cost id now_time bound_time =
          some ((1 - u) * ((now_time : ℚ) - (info.modify_time : ℚ)) / (2 * u))) ∧
       (u = 0 →
        st.calc_gc_benefit_cost id now_time bound_time = some DOUBLE_MAX) ∧
       (0 < u → u < 1 → now_time ≤ info.modify_time →
        st.calc_gc_benefit_cost id now_time bound_time =
          some ((1 - u) / (2 * u)))) := by
  intro st id now_time bound_time u info hu hinfo _hclosed
  refine ⟨?_, ?_, ?_⟩
  · intro h0 h1 hm
    unfold AsyncCleanerSt.calc_gc_benefit_cost
    rw [hu]
    dsimp only
    rw [if_neg (not_not_intro ⟨le_of_lt h0, h1⟩),
      if_neg (by decide : ¬ (gc_formula = gc_formula_t.GREEDY)),
      if_pos (by decide : gc_formula = gc_formula_t.COST_BENEFIT),
      if_neg (ne_of_gt h0), hinfo]
    dsimp only
    rw [if_pos (by exact_mod_cast hm :
      ((info.modify_time : ℚ) < (now_time : ℚ)))]
  · intro h0
    subst h0
    unfold AsyncCleanerSt.calc_gc_benefit_cost
    rw [hu]
    dsimp only
    rw [if_neg (not_not_intro ⟨le_refl 0, by norm_num⟩),
      if_neg (by decide : ¬ (gc_formula = gc_formula_t.GREEDY)),
      if_pos (by decide : gc_formula = gc_formula_t.COST_BENEFIT),
      if_pos rfl]
  · intro h0 h1 hm
    unfold AsyncCleanerSt.calc_gc_benefit_cost
    rw [hu]
    dsimp only
    rw [if_neg (not_not_intro ⟨le_of_lt h0, h1⟩),
      if_neg (by decide : ¬ (gc_formula = gc_formula_t.GREEDY)),
      if_pos (by decide : gc_formula = gc_formula_t.COST_BENEFIT),
      if_neg (ne_of_gt h0), hinfo]
    dsimp only
    rw [if_neg (by exact_mod_cast not_lt.mpr hm :
      ¬ ((info.modify_time : ℚ) < (now_time : ℚ)))]

/-- Witness for C2: a closed OOL segment of size 1024 with 512 live
bytes (u = 1/2), modify time 5, clock 10: score = (1/2)(10-5)/1. -/
theorem C2_witness :
    AsyncCleanerSt.calc_gc_benefit_cost
      { segments :=
          { segments :=
              [{ state := .CLOSED, seq := 7, type := .OOL, category := .DATA,
                 generation := 0, modify_time := 5, num_extents := 3,
                 written_to := 1024 }],
            segment_size := 1024, journal_segment_id := none,
            num_in_journal_open := 0, num_type_journal := 0, num_type_ool := 1,
            num_open := 0, num_empty := 0, num_closed := 1,
            count_open_journal := 0, count_open_ool := 0,
            count_release_journal := 0, count_release_ool := 0,
            count_close_journal := 0, count_close_ool := 0,
            total_bytes := 1024, avail_bytes_in_open := 0, modify_times := 0 },
        space_tracker := .simple ⟨[512]⟩, stats := {}, init_complete := true,
        disable_trim := false, blocked_io_wake := false,
        journal_dirty_tail_seq := NULL_SEG_SEQ, should_block_trim := false,
        should_block_reclaim := false }
      0 10 0
      = some ((1 - (1 / 2 : ℚ)) * (((10 : Int) : ℚ) - (((5 : Int)) : ℚ))
          / (2 * (1 / 2 : ℚ))) :=
  (C2_cost_benefit_formula
    { segments :=
        { segments :=
            [{ state := .CLOSED, seq := 7, type := .OOL, category := .DATA,
               generation := 0, modify_time := 5, num_extents := 3,
               written_to := 1024 }],
          segment_size := 1024, journal_segment_id := none,
          num_in_journal_open := 0, num_type_journal := 0, num_type_ool := 1,
          num_open := 0, num_empty := 0, num_closed := 1,
          count_open_journal := 0, count_open_ool := 0,
          count_release_journal := 0, count_release_ool := 0,
          count_close_journal := 0, count_close_ool := 0,
          total_bytes := 1024, avail_bytes_in_open := 0, modify_times := 0 },
      space_tracker := .simple ⟨[512]⟩, stats := {}, init_complete := true,
      disable_trim := false, blocked_io_wake := false,
      journal_dirty_tail_seq := NULL_SEG_SEQ, should_block_trim := false,
      should_block_reclaim := false }
    0 10 0 (1 / 2)
    { state := .CLOSED, seq := 7, type := .OOL, category := .DATA,
      generation := 0, modify_time := 5, num_extents := 3, written_to := 1024 }
    (by unfold AsyncCleanerSt.calc_utilization SpaceTrackerI.get_usage
          SpaceTrackerSimple.get_usage
        norm_num)
    rfl (by decide)).1 (by norm_num) (by norm_num) (by decide)


/-- Any score the cost-benefit calculator returns is strictly
positive (hence the `benefit_cost > max_benefit_cost` update with
initial max 0 fires for the first candidate). -/
theorem benefit_cost_pos (st : AsyncCleanerSt) (id : Nat)
    (now_time bound_time : Int) (sc : ℚ)
    (h : st.calc_gc_benefit_cost id now_time bound_time = some sc) : 0 < sc := by
  unfold AsyncCleanerSt.calc_gc_benefit_cost at h
  split at h
  · exact Option.noConfusion h
  rename_i util hutil
  split at h
  · exact Option.noConfusion h
  rename_i hassert
  have hrange : 0 ≤ util ∧ util < 1 := not_not.mp hassert
  split at h
  · rename_i hg
    exact absurd hg (by decide)
  split at h
  · split at h
    · rw [Option.some.injEq] at h
      subst h
      unfold DOUBLE_MAX
      norm_num
    · rename_i hne
      have hpos : 0 < util := lt_of_le_of_ne hrange.1 (Ne.symm hne)
      split at h
      · exact Option.noConfusion h
      dsimp only at h
      split at h
      · rename_i hgt
        rw [Option.some.injEq] at h
        subst h
        apply div_pos
        · apply mul_pos
          · linarith [hrange.2]
          · linarith [hgt]
        · linarith [hpos]
      · rw [Option.some.injEq] at h
        subst h
        apply div_pos
        · linarith [hrange.2]
        · linarith [hpos]
  · rename_i hcb
    exact absurd (by decide : gc_formula = gc_formula_t.COST_BENEFIT) hcb

/-- Invariants of the selection loop: the running maximum only grows,
every candidate's score is defined and bounded by the final maximum,
and the final best is either the accumulator (nothing beat it) or a
candidate whose score equals the final maximum, with every candidate
strictly earlier in the list scoring strictly below it (first-found
tie-break). -/
theorem selLoop_spec (st : AsyncCleanerSt) (now_time bound_time : Int) :
    ∀ (l : List (Nat × segment_info_t)) (acc : Option Nat) (mx : ℚ)
      (rid : Option Nat) (rmx : ℚ),
      selLoop st now_time bound_time l acc mx = some (rid, rmx) →
      mx ≤ rmx ∧
      (∀ p ∈ l, reclaim_candidate st p.2 →
        ∃ sc, st.calc_gc_benefit_cost p.1 now_time bound_time = some sc ∧
          sc ≤ rmx) ∧
      ((rid = acc ∧ rmx = mx) ∨
        ∃ l1 p l2, l = l1 ++ p :: l2 ∧ reclaim_candidate st p.2 ∧
          rid = some p.1 ∧
          st.calc_gc_benefit_cost p.1 now_time bound_time = some rmx ∧
          mx < rmx ∧
          (∀ q ∈ l1, reclaim_candidate st q.2 →
            ∃ sq, st.calc_gc_benefit_cost q.1 now_time bound_time = some sq ∧
              sq < rmx)) := by
  intro l
  induction l with
  | nil =>
    intro acc mx rid rmx h
    unfold selLoop at h
    rw [Option.some.injEq, Prod.mk.injEq] at h
    obtain ⟨h1, h2⟩ := h
    subst h1
    subst h2
    exact ⟨le_refl _, by simp, Or.inl ⟨rfl, rfl⟩⟩
  | cons hd rest ih =>
    intro acc mx rid rmx h
    obtain ⟨i, info⟩ := hd
    unfold selLoop at h
    split at h
    · rename_i hcand
      split at h
      · exact Option.noConfusion h
      rename_i bc hbc
      split at h
      · rename_i hgt
        obtain ⟨ha, hb, hc⟩ := ih (some i) bc rid rmx h
        refine ⟨le_trans (le_of_lt hgt) ha, ?_, ?_⟩
        · intro p hp hpc
          rcases List.mem_cons.mp hp with hp0 | hp1
          · subst hp0
            exact ⟨bc, hbc, ha⟩
          · exact hb p hp1 hpc
        · rcases hc with ⟨hrid, hrmx⟩ | ⟨l1, p, l2, heq, hpc, hrid, hsc, hmx, hstrict⟩
          · subst hrmx
            exact Or.inr ⟨[], (i, info), rest, rfl, hcand, hrid, hbc, hgt,
              fun q hq => absurd hq (List.not_mem_nil q)⟩
          · refine Or.inr ⟨(i, info) :: l1, p, l2, by rw [heq]; rfl, hpc, hrid,
              hsc, lt_trans hgt hmx, ?_⟩
            intro q hq hqc
            rcases List.mem_cons.mp hq with hq0 | hq1
            · subst hq0
              exact ⟨bc, hbc, hmx⟩
            · exact hstrict q hq1 hqc
      · rename_i hngt
        have hble : bc ≤ mx := not_lt.mp hngt
        obtain ⟨ha, hb, hc⟩ := ih acc mx rid rmx h
        refine ⟨ha, ?_, ?_⟩
        · intro p hp hpc
          rcases List.mem_cons.mp hp with hp0 | hp1
          · subst hp0
            exact ⟨bc, hbc, le_trans hble ha⟩
          · exact hb p hp1 hpc
        · rcases hc with ⟨hrid, hrmx⟩ | ⟨l1, p, l2, heq, hpc, hrid, hsc, hmx, hstrict⟩
          · exact Or.inl ⟨hrid, hrmx⟩
          · refine Or.inr ⟨(i, info) :: l1, p, l2, by rw [heq]; rfl, hpc, hrid,
              hsc, hmx, ?_⟩
            intro q hq hqc
            rcases List.mem_cons.mp hq with hq0 | hq1
            · subst hq0
              exact ⟨bc, hbc, lt_of_le_of_lt hble hmx⟩
            · exact hstrict q hq1 hqc
    · rename_i hncand
      obtain ⟨ha, hb, hc⟩ := ih acc mx rid rmx h
      refine ⟨ha, ?_, ?_⟩
      · intro p hp hpc
        rcases List.mem_cons.mp hp with hp0 | hp1
        · subst hp0
          exact absurd hpc hncand
        · exact hb p hp1 hpc
      · rcases hc with ⟨hrid, hrmx⟩ | ⟨l1, p, l2, heq, hpc, hrid, hsc, hmx, hstrict⟩
        · exact Or.inl ⟨hrid, hrmx⟩
        · refine Or.inr ⟨(i, info) :: l1, p, l2, by rw [heq]; rfl, hpc, hrid,
            hsc, hmx, ?_⟩
          intro q hq hqc
          rcases List.mem_cons.mp hq with hq0 | hq1
          · subst hq0
            exact absurd hqc hncand
          · exact hstrict q hq1 hqc

/-- When no element of the list passes the candidate filter, the
selection loop returns the accumulator unchanged. -/
theorem selLoop_no_cand (st : AsyncCleanerSt) (now_time bound_time : Int) :
    ∀ (l : List (Nat × segment_info_t)) (acc : Option Nat) (mx : ℚ),
      (∀ p ∈ l, ¬ reclaim_candidate st p.2) →
      selLoop st now_time bound_time l acc mx = some (acc, mx) := by
  intro l
  induction l with
  | nil => intro acc mx _; rfl
  | cons hd rest ih =>
    intro acc mx h
    obtain ⟨i, info⟩ := hd
    unfold selLoop
    rw [if_neg (show ¬ (info.is_closed ∧ ¬ info.is_in_journal st.get_journal_tail)
      from h (i, info) (List.mem_cons_self _ _))]
    exact ih acc mx (fun p hp => h p (List.mem_cons_of_mem _ hp))


/-- C3: get_next_reclaim_segment considers exactly the CLOSED segments
that are not part of the current journal; a returned victim is such a
candidate whose score is greatest, with ties broken by first-found
iteration order (every strictly earlier candidate scores strictly
less); and when no candidate exists the selector hits
ceph_abort("impossible!") — a fatal logic error, modelled as `none`. -/
theorem C3_victim_selection :
    (∀ (st : AsyncCleanerSt) (now_time : Int) (id : Nat),
      st.get_next_reclaim_segment now_time = some id →
      ∃ info sc, st.segments.segments[id]? = some info ∧
        reclaim_candidate st info ∧
        st.calc_gc_benefit_cost id now_time NULL_TIME = some sc ∧
        ∀ (j : Nat) (infoj : segment_info_t), st.segments.segments[j]? = some infoj →
          reclaim_candidate st infoj →
          ∃ scj, st.calc_gc_benefit_cost j now_time NULL_TIME = some scj ∧
            scj ≤ sc ∧ (j < id → scj < sc)) ∧
    (∀ (st : AsyncCleanerSt) (now_time : Int),
      (∀ (j : Nat) (infoj : segment_info_t), st.segments.segments[j]? = some infoj →
        ¬ reclaim_candidate st infoj) →
      st.get_next_reclaim_segment now_time = none) := by
  constructor
  · intro st now_time id h
    unfold AsyncCleanerSt.get_next_reclaim_segment at h
    split at h
    · exact Option.noConfusion h
    · exact Option.noConfusion h
    rename_i id0 rmx heq
    have hid : id0 = id := Option.some.inj h
    rw [hid] at heq
    obtain ⟨ha, hb, hc⟩ := selLoop_spec st now_time NULL_TIME
      st.segments.segments.enum none 0 (some id) rmx heq
    rcases hc with ⟨hrid, _⟩ | ⟨l1, p, l2, heq2, hpc, hrid, hsc, hmx, hstrict⟩
    · exact Option.noConfusion hrid
    obtain ⟨pi, pinfo⟩ := p
    have hidpi : pi = id := (Option.some.inj hrid).symm
    have hpos : (st.segments.segments.enum)[l1.length]? = some (pi, pinfo) := by
      rw [heq2, List.getElem?_append_right (le_refl l1.length)]
      simp
    rw [List.getElem?_enum] at hpos
    cases hx : st.segments.segments[l1.length]? with
    | none =>
      rw [hx] at hpos
      exact Option.noConfusion hpos
    | some x =>
      rw [hx] at hpos
      simp only [Option.map] at hpos
      have hpair := Option.some.inj hpos
      have hl1 : l1.length = pi := congrArg Prod.fst hpair
      have hxp : x = pinfo := congrArg Prod.snd hpair
      refine ⟨pinfo, rmx, ?_, hpc, ?_, ?_⟩
      · rw [← hidpi, ← hl1, hx, hxp]
      · rw [← hidpi]
        exact hsc
      · intro j infoj hj hcand
        have henumj : (st.segments.segments.enum)[j]? = some (j, infoj) := by
          rw [List.getElem?_enum, hj]
          rfl
        have hmem : (j, infoj) ∈ st.segments.segments.enum :=
          List.getElem?_mem henumj
        obtain ⟨scj, hscj, hle⟩ := hb (j, infoj) hmem hcand
        refine ⟨scj, hscj, hle, ?_⟩
        intro hjlt
        have hjl1 : l1[j]? = some (j, infoj) := by
          rw [heq2] at henumj
          rw [List.getElem?_append] at henumj
          rw [if_pos (by omega : j < l1.length)] at henumj
          exact henumj
        obtain ⟨sq, hsq, hlt⟩ := hstrict (j, infoj) (List.getElem?_mem hjl1) hcand
        rw [hscj] at hsq
        rw [Option.some.inj hsq]
        exact hlt
  · intro st now_time h
    unfold AsyncCleanerSt.get_next_reclaim_segment
    rw [selLoop_no_cand st now_time NULL_TIME st.segments.segments.enum none 0 ?hnc]
    case hnc =>
      intro p hp
      obtain ⟨i, info⟩ := p
      obtain ⟨n, hn⟩ := List.mem_iff_getElem?.mp hp
      rw [List.getElem?_enum] at hn
      cases hx : st.segments.segments[n]? with
      | none =>
        rw [hx] at hn
        exact Option.noConfusion hn
      | some x =>
        rw [hx] at hn
        simp only [Option.map] at hn
        have hpair := Option.some.inj hn
        have hni : n = i := congrArg Prod.fst hpair
        have hxi : x = info := congrArg Prod.snd hpair
        rw [hni, hxi] at hx
        exact h i info hx


/-- Witness for C3: a cleaner with one EMPTY segment has no closed
non-journal candidate, so get_next_reclaim_segment aborts (`none`). -/
theorem C3_victim_selection_witness :
    AsyncCleanerSt.get_next_reclaim_segment
      { segments :=
          { segments := [{}], segment_size := 8, journal_segment_id := none,
            num_in_journal_open := 0, num_type_journal := 0, num_type_ool := 0,
            num_open := 0, num_empty := 1, num_closed := 0,
            count_open_journal := 0, count_open_ool := 0,
            count_release_journal := 0, count_release_ool := 0,
            count_close_journal := 0, count_close_ool := 0,
            total_bytes := 8, avail_bytes_in_open := 0, modify_times := 0 },
        space_tracker := .simple ⟨[0]⟩, stats := {}, init_complete := true,
        disable_trim := false, blocked_io_wake := false,
        journal_dirty_tail_seq := NULL_SEG_SEQ, should_block_trim := false,
        should_block_reclaim := false }
      10 = none :=
  C3_victim_selection.2 _ 10 (by
    intro j infoj hj hc
    cases j with
    | zero =>
      simp only [List.getElem?_cons_zero, Option.some.injEq] at hj
      subst hj
      exact absurd hc.1 (by decide)
    | succ n => simp at hj)


/-- Modelled from the spec: AsyncCleaner::should_block_on_gc (missing
async_cleaner.h; spec 4.5): blocked when either the trim or the
reclaim threshold predicate holds. -/
def AsyncCleanerSt.should_block_on_gc (st : AsyncCleanerSt) : Bool :=
  st.should_block_trim || st.should_block_reclaim

/-- Modelled from the spec: AsyncCleaner::maybe_wake_gc_blocked_io
(missing async_cleaner.h; spec 4.5): once initialized, a pending
blocked-io promise is resolved and cleared when should_block_on_gc has
become false. -/
def AsyncCleanerSt.maybe_wake_gc_blocked_io (st : AsyncCleanerSt) : AsyncCleanerSt :=
  if st.init_complete ∧ st.blocked_io_wake ∧ ¬ st.should_block_on_gc then
    { st with blocked_io_wake := false }
  else st

/-- AsyncCleaner::maybe_release_segment (async_cleaner.cc 1192-1220):
after the device release, a nonzero utilization of the to-be-released
segment is fatal (ceph_abort); otherwise the directory marks the
segment EMPTY; a nonzero tracker usage observed afterwards is fatal
again; finally blocked io may be woken.  `to_release` is
Transaction::get_segment_to_release, with `none` for NULL_SEG_ID; the
segment-utilization histogram adjustment is omitted. -/
def AsyncCleanerSt.maybe_release_segment (st : AsyncCleanerSt)
    (to_release : Option Nat) : Option AsyncCleanerSt :=
  match to_release with
  | none => some st
  | some seg =>
    match st.calc_utilization seg with
    | none => none
    | some old_usage =>
      if old_usage ≠ 0 then none
      else
        match st.segments.mark_empty seg with
        | none => none
        | some segs2 =>
          match ({ st with segments := segs2 } : AsyncCleanerSt).space_tracker.get_usage seg with
          | none => none
          | some u2 =>
            if u2 ≠ 0 then none
            else some ({ st with segments := segs2 } : AsyncCleanerSt).maybe_wake_gc_blocked_io

/-- C4: whenever maybe_release_segment succeeds in transitioning a
segment CLOSED→EMPTY, the SpaceTracker usage of that segment was 0
just before; conversely, when the usage is 0 (and the segment size is
nonzero) the nonzero-usage abort branches are unreachable and the call
reduces to the directory transition plus wakeup. -/
theorem C4_release_requires_zero_usage :
    (∀ (st : AsyncCleanerSt) (seg : Nat) (st2 : AsyncCleanerSt),
      st.maybe_release_segment (some seg) = some st2 →
      st.space_tracker.get_usage seg = some 0) ∧
    (∀ (st : AsyncCleanerSt) (seg : Nat) (u : Int),
      st.segments.segment_size ≠ 0 →
      st.space_tracker.get_usage seg = some u →
      u = 0 →
      st.maybe_release_segment (some seg) =
        match st.segments.mark_empty seg with
        | none => none
        | some segs2 =>
          some ({ st with segments := segs2 } : AsyncCleanerSt).maybe_wake_gc_blocked_io) := by
  constructor
  · intro st seg st2 h
    unfold AsyncCleanerSt.maybe_release_segment at h
    dsimp only at h
    split at h
    · exact Option.noConfusion h
    rename_i util hutil
    split at h
    · exact Option.noConfusion h
    rename_i hne0
    split at h
    · exact Option.noConfusion h
    rename_i segs2 hme
    split at h
    · exact Option.noConfusion h
    rename_i u2 hu2
    split at h
    · exact Option.noConfusion h
    rename_i hz
    rw [not_not.mp hz] at hu2
    exact hu2
  · intro st seg u hss hu hu0
    subst hu0
    unfold AsyncCleanerSt.maybe_release_segment AsyncCleanerSt.calc_utilization
    dsimp only
    rw [hu]
    dsimp only
    rw [if_neg hss]
    dsimp only
    rw [if_neg (not_not_intro (by rw [Int.cast_zero, zero_div] :
      ((0 : Int) : ℚ) / (st.segments.segment_size : ℚ) = 0))]
    cases hme : st.segments.mark_empty seg with
    | none => rfl
    | some segs2 =>
      dsimp only
      rw [if_neg (not_not_intro rfl)]


/-- A small concrete cleaner state used by witnesses: one CLOSED OOL
segment with zero live bytes. -/
@[reducible] def sampleCleaner : AsyncCleanerSt where
  segments :=
    { segments :=
        [{ state := .CLOSED, seq := 3, type := .OOL, category := .DATA,
           generation := 0, modify_time := 0, num_extents := 0, written_to := 16 }],
      segment_size := 16, journal_segment_id := none, num_in_journal_open := 0,
      num_type_journal := 0, num_type_ool := 1, num_open := 0, num_empty := 0,
      num_closed := 1, count_open_journal := 0, count_open_ool := 0,
      count_release_journal := 0, count_release_ool := 0, count_close_journal := 0,
      count_close_ool := 0, total_bytes := 16, avail_bytes_in_open := 0,
      modify_times := 0 }
  space_tracker := .simple ⟨[0]⟩
  stats := {}
  init_complete := true
  disable_trim := false
  blocked_io_wake := false
  journal_dirty_tail_seq := NULL_SEG_SEQ
  should_block_trim := false
  should_block_reclaim := false

/-- Witness for C4 at the sample cleaner: the released segment has
zero usage, so the call reduces to the CLOSED→EMPTY transition plus
wakeup. -/
theorem C4_witness :
    AsyncCleanerSt.maybe_release_segment sampleCleaner (some 0) =
      match sampleCleaner.segments.mark_empty 0 with
      | none => none
      | some segs2 =>
        some ({ sampleCleaner with segments := segs2 } :
          AsyncCleanerSt).maybe_wake_gc_blocked_io :=
  C4_release_requires_zero_usage.2 sampleCleaner 0 0 (by decide) rfl rfl

/-! ## C10: mark_space_used / mark_space_free frame conditions -/

/-- AsyncCleaner::mark_space_used (async_cleaner.cc 1246-1277): a non
segment-backed address returns immediately; before initialization
completes (and without the init_scan flag) nothing happens; otherwise
used_bytes grows by len and the tracker allocates.  The GC-task wakeup
signal is external to this state and the segment-utilization histogram
is omitted; the debug assert(ret > 0) is a `none` branch. -/
def AsyncCleanerSt.mark_space_used (st : AsyncCleanerSt) (addr : paddr_t)
    (len : Nat) (init_scan : Bool) : Option AsyncCleanerSt :=
  match addr with
  | .seg segment off =>
    if ¬ init_scan ∧ ¬ st.init_complete then some st
    else
      match st.space_tracker.allocate segment off len with
      | none => none
      | some (tr2, ret) =>
        if ret ≤ 0 then none
        else
          some { st with
            stats := { st.stats with used_bytes := st.stats.used_bytes + len },
            space_tracker := tr2 }
  | _ => some st

/-- AsyncCleaner::mark_space_free (async_cleaner.cc 1279-1312): before
initialization completes (without init_scan) nothing happens; a non
segment-backed address returns immediately; otherwise
ceph_assert(used_bytes >= len), used_bytes shrinks, the tracker
releases, and blocked io may be woken.  The debug assert(ret >= 0) is
a `none` branch. -/
def AsyncCleanerSt.mark_space_free (st : AsyncCleanerSt) (addr : paddr_t)
    (len : Nat) (init_scan : Bool) : Option AsyncCleanerSt :=
  if ¬ st.init_complete ∧ ¬ init_scan then some st
  else
    match addr with
    | .seg segment off =>
      if ¬ (len ≤ st.stats.used_bytes) then none
      else
        match st.space_tracker.release segment off len with
        | none => none
        | some (tr2, ret) =>
          if ret < 0 then none
          else
            some (({ st with
              stats := { st.stats with used_bytes := st.stats.used_bytes - len },
              space_tracker := tr2 } : AsyncCleanerSt).maybe_wake_gc_blocked_io)
    | _ => some st

/-- C10: mark_space_used and mark_space_free leave the cleaner state
completely unchanged (and do not abort) when the address is not
segment-backed, and likewise when called before initialization is
complete without the init_scan flag; only segment addresses after init
(or with init_scan) reach the accounting updates. -/
theorem C10_mark_space_frame :
    ∀ (st : AsyncCleanerSt) (addr : paddr_t) (len : Nat) (init_scan : Bool),
      (addr.get_addr_type ≠ .SEGMENT ∨
        (init_scan = false ∧ st.init_complete = false)) →
      st.mark_space_used addr len init_scan = some st ∧
      st.mark_space_free addr len init_scan = some st := by
  intro st addr len init_scan h
  constructor
  · unfold AsyncCleanerSt.mark_space_used
    cases addr with
    | seg segment off =>
      rcases h with h | ⟨h1, h2⟩
      · exact absurd rfl h
      · subst h1
        dsimp only
        rw [if_pos ⟨fun hc => Bool.noConfusion hc,
          fun hc => by rw [h2] at hc; exact Bool.noConfusion hc⟩]
    | blk off => rfl
    | res off => rfl
  · unfold AsyncCleanerSt.mark_space_free
    cases addr with
    | seg segment off =>
      rcases h with h | ⟨h1, h2⟩
      · exact absurd rfl h
      · subst h1
        rw [if_pos ⟨fun hc => by rw [h2] at hc; exact Bool.noConfusion hc,
          fun hc => Bool.noConfusion hc⟩]
    | blk off =>
      split
      · rfl
      · rfl
    | res off =>
      split
      · rfl
      · rfl

/-- Witness for C10 at the sample cleaner and a random-block address. -/
theorem C10_witness :
    AsyncCleanerSt.mark_space_used sampleCleaner (.blk 5) 4096 false
        = some sampleCleaner ∧
      AsyncCleanerSt.mark_space_free sampleCleaner (.blk 5) 4096 false
        = some sampleCleaner :=
  C10_mark_space_frame sampleCleaner (.blk 5) 4096 false (Or.inl (by decide))


/-! ## C8: reserve_projected_usage -/

/-- The seastar::do_until wait of reserve_projected_usage: a blocked
caller parks on a fresh blocked_io_wake promise and resumes in
whatever cleaner state the system has at the wakeup; `env` carries
those observed states in order.  The future resolves at the first
observed state whose should_block_on_gc is false; an exhausted env
stands for a future that never resolves (there is no resolution state
to observe). -/
def reserveLoop : AsyncCleanerSt → List AsyncCleanerSt → Option AsyncCleanerSt
  | cur, env =>
    if ¬ cur.should_block_on_gc then some cur
    else
      match env with
      | [] => none
      | nxt :: rest => reserveLoop nxt rest

/-- The counter updates reserve_projected_usage performs before the
wait: io_count, the per-cause blocked counters, and the blocking
gauge/sum when blocked. -/
def AsyncCleanerSt.reserve_entry (st : AsyncCleanerSt) : AsyncCleanerSt :=
  let is_blocked := st.should_block_trim || st.should_block_reclaim
  { st with stats := { st.stats with
      io_count := st.stats.io_count + 1,
      io_blocked_count_trim :=
        if st.should_block_trim then st.stats.io_blocked_count_trim + 1
        else st.stats.io_blocked_count_trim,
      io_blocked_count_reclaim :=
        if st.should_block_reclaim then st.stats.io_blocked_count_reclaim + 1
        else st.stats.io_blocked_count_reclaim,
      io_blocking_num :=
        if is_blocked then st.stats.io_blocking_num + 1 else st.stats.io_blocking_num,
      io_blocked_count :=
        if is_blocked then st.stats.io_blocked_count + 1 else st.stats.io_blocked_count,
      io_blocked_sum :=
        if is_blocked then st.stats.io_blocked_sum + (st.stats.io_blocking_num + 1)
        else st.stats.io_blocked_sum } }

/-- AsyncCleaner::reserve_projected_usage (async_cleaner.cc
1365-1409).  With disable_trim the future resolves immediately with no
accounting.  Otherwise ceph_assert(init_complete) and
ceph_assert(!blocked_io_wake) — the pipeline admits one in-flight
reservation — then the entry counters are bumped and the caller waits
until a state with should_block_on_gc false is observed; at resolution
ceph_assert(!blocked_io_wake) holds again, the reservation is recorded
(projected_used_bytes += bytes plus derived counters) and a blocked
caller leaves the blocking gauge (assert it was positive). -/
def AsyncCleanerSt.reserve_projected_usage (st : AsyncCleanerSt)
    (env : List AsyncCleanerSt) (projected_usage : Nat) : Option AsyncCleanerSt :=
  if st.disable_trim then some st
  else if ¬ st.init_complete then none
  else if st.blocked_io_wake then none
  else
    let is_blocked := st.should_block_trim || st.should_block_reclaim
    match reserveLoop st.reserve_entry env with
    | none => none
    | some r =>
      if r.blocked_io_wake then none
      else if is_blocked ∧ r.stats.io_blocking_num = 0 then none
      else
        some { r with stats := { r.stats with
          projected_used_bytes := r.stats.projected_used_bytes + projected_usage,
          projected_count := r.stats.projected_count + 1,
          projected_used_bytes_sum := r.stats.projected_used_bytes_sum +
            (r.stats.projected_used_bytes + projected_usage),
          io_blocking_num :=
            if is_blocked then r.stats.io_blocking_num - 1
            else r.stats.io_blocking_num } }

/-- The do_until loop only hands back a state in which
should_block_on_gc is false. -/
theorem reserveLoop_resolves (cur : AsyncCleanerSt) (env : List AsyncCleanerSt)
    (r : AsyncCleanerSt) (h : reserveLoop cur env = some r) :
    r.should_block_on_gc = false := by
  induction env generalizing cur with
  | nil =>
    unfold reserveLoop at h
    split at h
    · rename_i hnb
      rw [Option.some.injEq] at h
      subst h
      exact Bool.eq_false_iff.mpr hnb
    · exact Option.noConfusion h
  | cons nxt rest ih =>
    unfold reserveLoop at h
    split at h
    · rename_i hnb
      rw [Option.some.injEq] at h
      subst h
      exact Bool.eq_false_iff.mpr hnb
    · exact ih nxt h

/-- C8 (amended): unless the test-only disable_trim short-circuit is
set (then the future resolves immediately with no accounting),
reserve_projected_usage asserts no reservation is in flight on entry
(a pending blocked_io_wake promise is fatal), resolves its future only
once a state where should_block_on_gc is false is observed, asserts no
pending promise at resolution, and records the reservation by adding
exactly bytes to projected_used_bytes of the resolution state. -/
theorem C8_reserve_resolution :
    ∀ (st : AsyncCleanerSt) (env : List AsyncCleanerSt) (bytes : Nat)
      (st2 : AsyncCleanerSt),
      st.disable_trim = false →
      st.reserve_projected_usage env bytes = some st2 →
      st.blocked_io_wake = false ∧ st.init_complete = true ∧
      ∃ r, reserveLoop st.reserve_entry env = some r ∧
        r.should_block_on_gc = false ∧ r.blocked_io_wake = false ∧
        st2.stats.projected_used_bytes = r.stats.projected_used_bytes + bytes := by
  intro st env bytes st2 hdt h
  unfold AsyncCleanerSt.reserve_projected_usage at h
  split at h
  · rename_i hdt2
    rw [hdt] at hdt2
    exact Bool.noConfusion hdt2
  split at h
  · exact Option.noConfusion h
  rename_i hinit
  split at h
  · exact Option.noConfusion h
  rename_i hwake
  dsimp only at h
  split at h
  · exact Option.noConfusion h
  rename_i r heq
  split at h
  · exact Option.noConfusion h
  rename_i hrwake
  split at h
  · exact Option.noConfusion h
  rw [Option.some.injEq] at h
  refine ⟨Bool.eq_false_iff.mpr hwake, not_not.mp hinit, r, heq,
    reserveLoop_resolves _ env r heq, Bool.eq_false_iff.mpr hrwake, ?_⟩
  rw [← h]

/-- C8 counterexample: with disable_trim set, the future resolves
immediately in a state where should_block_on_gc is true, and no bytes
are added to projected_used_bytes — the claim as stated fails on the
disable_trim short-circuit. -/
theorem C8_counterexample :
    AsyncCleanerSt.reserve_projected_usage
        { sampleCleaner with disable_trim := true, should_block_trim := true }
        [] 100
      = some { sampleCleaner with disable_trim := true, should_block_trim := true } ∧
    AsyncCleanerSt.should_block_on_gc
        { sampleCleaner with disable_trim := true, should_block_trim := true } = true ∧
    ({ sampleCleaner with disable_trim := true, should_block_trim := true } :
        AsyncCleanerSt).stats.projected_used_bytes = 0 :=
  ⟨rfl, rfl, rfl⟩

/-- Witness for C8: an unblocked reservation of 10 bytes at the sample
cleaner resolves with the pipeline assertion satisfied on entry. -/
theorem C8_witness : sampleCleaner.blocked_io_wake = false :=
  (C8_reserve_resolution sampleCleaner [] 10
    { sampleCleaner with stats :=
        { io_count := 1, projected_used_bytes := 10, projected_count := 1,
          projected_used_bytes_sum := 10 } }
    rfl (by decide)).1


/-! ## C9: mount-time missing segment handling -/

/-- The segment_header_t fields used by AsyncCleaner::mount
(seastore_types.h). -/
structure segment_header_t where
  segment_seq : Nat
  segment_nonce : Nat
  type : segment_type_t
  category : data_category_t
  generation : Nat
deriving DecidableEq, Repr

/-- The segment_tail_t fields used by AsyncCleaner::mount
(seastore_types.h); modify_time is a mod_time_point_t (milliseconds,
NULL_MOD_TIME = 0). -/
structure segment_tail_t where
  segment_nonce : Nat
  modify_time : Int
  num_extents : Nat
deriving DecidableEq, Repr

/-- Outcome of SegmentManagerGroup::read_segment_header. -/
inductive HeaderReadResult
  | ok (header : segment_header_t)
  | enoent
  | enodata
  | ioerr
deriving DecidableEq, Repr

/-- Outcome of SegmentManagerGroup::read_segment_tail. -/
inductive TailReadResult
  | ok (tail : segment_tail_t)
  | enodata
  | ioerr
deriving DecidableEq, Repr

/-- The record_header_t fields consumed by scan_no_tail_segment
(seastore_types.h). -/
structure record_header_t where
  extents : Nat
  modify_time : Int
deriving DecidableEq, Repr

/-- Mount-time failures: input_output_error propagates; fatal stands
for ceph_abort / assert_all. -/
inductive MountError
  | input_output_error
  | fatal
deriving DecidableEq, Repr

/-- get_average_time (seastore_types.h): the source's integer
average c1/(n1+n2)*n1 + c2/(n1+n2)*n2 (C++ int64 division truncates
toward zero, as does Lean Int division). -/
def get_average_time (t1 : Int) (n1 : Nat) (t2 : Int) (n2 : Nat) : Int :=
  t1 / ((n1 : Int) + (n2 : Int)) * n1 + t2 / ((n1 : Int) + (n2 : Int)) * n2

/-- Modelled from the spec: segments_info_t::update_modify_time
(missing async_cleaner.h; spec 4.6): a zero extent count records
nothing (its time must be NULL); otherwise the per-segment modify time
accumulates the running average and num_extents grows. -/
def segments_info_t.update_modify_time (s : segments_info_t) (segment : Nat)
    (tp : Int) (num_extents : Nat) : Option segments_info_t :=
  if num_extents = 0 then
    if tp ≠ NULL_TIME then none else some s
  else
    match s.segments[segment]? with
    | none => none
    | some info =>
      if info.modify_time = NULL_TIME then
        some { s with
                 segments := s.segments.set segment
                   { info with
                       modify_time := tp,
                       num_extents := info.num_extents + num_extents } }
      else
        some { s with
                 segments := s.segments.set segment
                   { info with
                       modify_time := get_average_time info.modify_time
                         info.num_extents tp num_extents,
                       num_extents := info.num_extents + num_extents } }

/-- Modelled from the spec: AsyncCleaner::init_mark_segment_closed
(missing async_cleaner.h): the EMPTY→CLOSED mount transition with the
header's seq/type/category/generation (metrics adjustment omitted). -/
def AsyncCleanerSt.init_mark_segment_closed (st : AsyncCleanerSt)
    (segment seq : Nat) (type : segment_type_t) (category : data_category_t)
    (generation : Nat) : Option AsyncCleanerSt :=
  match st.segments.init_closed segment seq type category generation with
  | none => none
  | some segs2 => some { st with segments := segs2 }

/-- AsyncCleaner::scan_no_tail_segment (async_cleaner.cc 1133-1190):
fold the decoded record headers, accumulating modify time and extent
count (an extent-carrying record with NULL time is an
input_output_error), then mark the segment closed from its header. -/
def AsyncCleanerSt.scan_no_tail_segment (st : AsyncCleanerSt)
    (header : segment_header_t) (segment : Nat) :
    List record_header_t → Except MountError AsyncCleanerSt
  | [] =>
    match st.init_mark_segment_closed segment header.segment_seq header.type
        header.category header.generation with
    | none => .error .fatal
    | some st2 => .ok st2
  | rh :: rest =>
    if rh.extents = 0 ∨ rh.modify_time ≠ NULL_TIME then
      match st.segments.update_modify_time segment rh.modify_time rh.extents with
      | none => .error .fatal
      | some segs2 =>
        AsyncCleanerSt.scan_no_tail_segment { st with segments := segs2 }
          header segment rest
    else .error .input_output_error

/-- The per-segment body of AsyncCleaner::mount (async_cleaner.cc
1044-1131): ENOENT/ENODATA on the header read are handled as EMPTY (no
action); a NULL-typed header is fatal; a tail whose nonce mismatches
the header (or an ENODATA tail) causes a record scan; otherwise the
tail's modify time is applied under the both-NULL-or-both-set
consistency rule (else input_output_error) and the segment is marked
closed. -/
def AsyncCleanerSt.mount_process_segment (st : AsyncCleanerSt) (segment : Nat)
    (hr : HeaderReadResult) (tr : TailReadResult)
    (records : List record_header_t) : Except MountError AsyncCleanerSt :=
  match hr with
  | .enoent => .ok st
  | .enodata => .ok st
  | .ioerr => .error .input_output_error
  | .ok header =>
    if header.type = .NULL_SEG then .error .fatal
    else
      match tr with
      | .ioerr => .error .input_output_error
      | .enodata => st.scan_no_tail_segment header segment records
      | .ok tail =>
        if tail.segment_nonce ≠ header.segment_nonce then
          st.scan_no_tail_segment header segment records
        else
          if (tail.modify_time = NULL_TIME ∧ tail.num_extents = 0) ∨
             (tail.modify_time ≠ NULL_TIME ∧ tail.num_extents ≠ 0) then
            match st.segments.update_modify_time segment tail.modify_time
                tail.num_extents with
            | none => .error .fatal
            | some segs2 =>
              match ({ st with segments := segs2 } :
                  AsyncCleanerSt).init_mark_segment_closed segment
                  header.segment_seq header.type header.category
                  header.generation with
              | none => .error .fatal
              | some st2 => .ok st2
          else .error .input_output_error

/-- AsyncCleaner::mount folded over every segment with its device
responses. -/
def AsyncCleanerSt.mount_segments (st : AsyncCleanerSt) :
    List (Nat × HeaderReadResult × TailReadResult × List record_header_t) →
      Except MountError AsyncCleanerSt
  | [] => .ok st
  | (segment, hr, tr, records) :: rest =>
    match st.mount_process_segment segment hr tr records with
    | .error e => .error e
    | .ok st2 => st2.mount_segments rest

/-- C9: during mount recovery a segment whose header read returns
ENOENT or ENODATA is treated as EMPTY — its processing step changes no
cleaner state and succeeds, and the surrounding mount fold simply
continues on the unchanged state (mount does not fail because of
it). -/
theorem C9_missing_segment_is_empty :
    (∀ (st : AsyncCleanerSt) (segment : Nat) (tr : TailReadResult)
        (records : List record_header_t) (hr : HeaderReadResult),
      hr = .enoent ∨ hr = .enodata →
      st.mount_process_segment segment hr tr records = .ok st) ∧
    (∀ (st : AsyncCleanerSt) (segment : Nat) (tr : TailReadResult)
        (records : List record_header_t) (hr : HeaderReadResult)
        (rest : List (Nat × HeaderReadResult × TailReadResult ×
          List record_header_t)),
      hr = .enoent ∨ hr = .enodata →
      st.mount_segments ((segment, hr, tr, records) :: rest) =
        st.mount_segments rest) := by
  constructor
  · intro st segment tr records hr h
    rcases h with h | h <;> subst h <;> rfl
  · intro st segment tr records hr rest h
    rcases h with h | h <;> subst h <;> rfl

/-- Witness for C9: an ENOENT header at the sample cleaner. -/
theorem C9_witness :
    AsyncCleanerSt.mount_process_segment sampleCleaner 0 .enoent .enodata []
      = .ok sampleCleaner :=
  C9_missing_segment_is_empty.1 sampleCleaner 0 .enodata [] .enoent (Or.inl rfl)

end Seastore
